import Mathlib

/-!
Shallow embedding of the parameter-grid construction engine of
`src/grid/Grid.cc` (namespace `lsst::meas::multifit::grid`).

Modelling conventions:
* C++ `double` scalars that are only copied (never computed with) are modelled
  as `Int`; parameter-component values are `List Int`.
* A `boost::shared_ptr` to a definition-side parameter component is modelled as
  the component record itself carrying a `tag : Nat` that plays the role of the
  heap address: two pointers are equal exactly when the whole record (tag
  included) is equal, and distinct heap instances always carry distinct tags.
  The dedup maps of `Initializer::transferComponents`, which C++ keys on the
  shared pointer, are keyed on that record.
* Grid-side components are heap objects created by the transfer; their identity
  is their index in the creation-order store list (the model of the heap).
  The C++ containers `Grid::positions` etc. expose the active subset of that
  store; the store list itself keeps every created component so that identity
  (indices) and the inactive sentinel offsets stay observable.
* Exceptions become `Except`; dereferencing an empty `shared_ptr`
  (`grid.getWcs()->clone()`, `object.getPosition()->getValue()`) becomes a
  distinguished error value, since C++ makes it a fatal assertion/UB.
* Placement-new cursor arithmetic (`new (output.sources._last++) ...`) is
  modelled explicitly: the cursor is advanced before the element constructor
  runs, exactly as the C++ evaluation order prescribes.
-/

namespace Multifit

/-- The three parameter-component kinds (`ParameterType` in `multifit`). -/
inductive ParameterType where
  | POSITION
  | RADIUS
  | ELLIPTICITY
deriving DecidableEq, Repr

/-- Fixed per-kind dimensionality (`grid::ParameterComponent<E>::SIZE`).
Position is 2 (sky point); the header fixing the other constants is not in the
tree — the development uses only that each is a fixed constant. -/
def ParameterType.SIZE : ParameterType → Nat
  | .POSITION => 2
  | .RADIUS => 1
  | .ELLIPTICITY => 2

/-- A definition-side parameter component
(`definition::ParameterComponent<E>` behind a `shared_ptr`): the `tag` models
the heap address (instance identity), `active` the fit/fixed flag, `value` the
fixed-size numeric vector. -/
structure DefComponent where
  tag : Nat
  active : Bool
  value : List Int
deriving DecidableEq, Repr

/-- A grid-side parameter component (`grid::ParameterComponent<E>`): value and
active flag copied from the definition side, plus the flat parameter-vector
`offset` (`-1` when inactive). Its identity is its index in the per-kind
creation-order store. -/
structure GridComponent where
  active : Bool
  value : List Int
  offset : Int
deriving DecidableEq, Repr

/-- `definition::Object`: identifier, optional basis (opaque token), and up to
one shared parameter component per kind. -/
structure DefObject where
  id : Int
  basis : Option Nat
  position : Option DefComponent
  radius : Option DefComponent
  ellipticity : Option DefComponent
deriving DecidableEq, Repr

/-- `definition::Frame`: identifier, filter identifier, footprint pixel count
(`getFootprint()->getNpix()`), optional PSF and WCS (opaque tokens). -/
structure DefFrame where
  id : Int
  filterId : Int
  npix : Nat
  psf : Option Nat
  wcs : Option Nat
deriving DecidableEq, Repr

/-- `Definition`: optional WCS plus the frame and object sets (modelled as
lists in set-iteration order). -/
structure Definition where
  wcs : Option Nat
  frames : List DefFrame
  objects : List DefObject
deriving DecidableEq, Repr

/-- The object's component of a given kind (`getComponent<E>()`). -/
def DefObject.component (o : DefObject) : ParameterType → Option DefComponent
  | .POSITION => o.position
  | .RADIUS => o.radius
  | .ELLIPTICITY => o.ellipticity

/-- `grid::Frame`: definition fields plus pixel offset, dense filter index and
frame index assigned during `initializeGrid`. -/
structure GridFrame where
  id : Int
  filterId : Int
  psf : Option Nat
  wcs : Option Nat
  pixelOffset : Nat
  pixelCount : Nat
  filterIndex : Nat
  frameIndex : Nat
deriving DecidableEq, Repr

/-- `grid::Object`: identifier and basis copied from the definition object,
per-kind references to deduplicated grid components (indices into the per-kind
store), and the half-open range of its sources in source storage. -/
structure GridObject where
  id : Int
  basis : Option Nat
  position : Option Nat
  radius : Option Nat
  ellipticity : Option Nat
  sourcesFirst : Nat
  sourcesLast : Nat
deriving DecidableEq, Repr

/-- The basis carried by a `grid::Source`: the object's basis convolved with
the frame-localized PSF, or the bare object basis. -/
inductive SourceBasis where
  | convolved (basis psf : Nat)
  | bare (basis : Nat)
deriving DecidableEq, Repr

/-- `grid::Source`: the pairing of one frame and one object, with the
sky-to-pixel transform presence, the localized PSF and the derived basis. -/
structure Source where
  frameIndex : Nat
  objectId : Int
  hasTransform : Bool
  localPsf : Option Nat
  basis : Option SourceBasis
deriving DecidableEq, Repr

/-- `Grid`: the immutable result of `initializeGrid`, with per-kind component
stores in creation order and the global counts. -/
structure Grid where
  wcs : Option Nat
  frames : List GridFrame
  objects : List GridObject
  sources : List Source
  positions : List GridComponent
  radii : List GridComponent
  ellipticities : List GridComponent
  parameterCount : Nat
  filterCount : Nat
  pixelCount : Nat
deriving DecidableEq, Repr

/-- The grid object's component reference of a given kind. -/
def GridObject.component (o : GridObject) : ParameterType → Option Nat
  | .POSITION => o.position
  | .RADIUS => o.radius
  | .ELLIPTICITY => o.ellipticity

/-- The grid's per-kind component store. -/
def Grid.store (g : Grid) : ParameterType → List GridComponent
  | .POSITION => g.positions
  | .RADIUS => g.radii
  | .ELLIPTICITY => g.ellipticities

/-- Association-list lookup, modelling `std::map::find` /
`std::map::insert`'s key test (keys compared for equality). -/
def lookupKey {α : Type} [DecidableEq α] (t : α) : List (α × Nat) → Option Nat
  | [] => none
  | (k, v) :: rest => if k = t then some v else lookupKey t rest

/-- Forward dedup transfer for one kind
(`Initializer::transferComponents(Definition const &, Grid &, Container &)`):
walks the objects' components in array order; a component seen for the first
time creates a grid component copying its active flag and value, with offset
the running parameter count if active (advancing it by `SIZE`) or `-1` if
inactive; a repeated component reuses the previously created one.  Returns the
final store, dedup map, parameter count, and per-object component reference. -/
def transferComponentsToGrid (E : ParameterType) :
    List (Option DefComponent) → List GridComponent →
    List (DefComponent × Nat) → Nat →
    List GridComponent × List (DefComponent × Nat) × Nat × List (Option Nat)
  | [], store, assoc, pc => (store, assoc, pc, [])
  | oc :: rest, store, assoc, pc =>
    match oc with
    | none =>
      let r := transferComponentsToGrid E rest store assoc pc
      (r.1, r.2.1, r.2.2.1, none :: r.2.2.2)
    | some c =>
      match lookupKey c assoc with
      | some ix =>
        let r := transferComponentsToGrid E rest store assoc pc
        (r.1, r.2.1, r.2.2.1, some ix :: r.2.2.2)
      | none =>
        let ix := store.length
        let comp : GridComponent :=
          { active := c.active, value := c.value,
            offset := if c.active then (pc : Int) else -1 }
        let pc' := if c.active then pc + E.SIZE else pc
        let r := transferComponentsToGrid E rest (store ++ [comp]) ((c, ix) :: assoc) pc'
        (r.1, r.2.1, r.2.2.1, some ix :: r.2.2.2)

/-- Checks that a component store (in creation order) carries offsets that run
contiguously from `s`, active components each claiming `SIZE` slots and
inactive ones carrying the `-1` sentinel; returns the final running count. -/
def checkOffsets (E : ParameterType) : List GridComponent → Nat → Option Nat
  | [], s => some s
  | c :: rest, s =>
    if c.active then
      if c.offset = (s : Int) then checkOffsets E rest (s + E.SIZE) else none
    else
      if c.offset = -1 then checkOffsets E rest s else none

/-- Errors raised during grid construction / definition reconstruction.  The
two WCS inconsistencies and the basis/PSF failure are the
`InvalidDefinitionError` throws of `grid::Source::Source` (and of
`Object::validate`); the two dereference errors model fatal empty
`shared_ptr` dereferences (`object.getPosition()->getValue()` and
`grid.getWcs()->clone()`). -/
inductive MFError where
  | inconsistentWcsFrameMissing
  | inconsistentWcsFrameHas
  | missingBasisOrPsf
  | nullPositionDeref
  | nullWcsDeref
deriving DecidableEq, Repr

/-- The frame loop of `Initializer::initializeGrid`: assigns each frame a
dense filter index (first-seen filter ids get sequentially increasing indices
through the `_filters` map), a frame index in construction order, and a pixel
offset equal to the running pixel total, advanced by the frame's footprint
pixel count.  Returns the grid frames, the filter map, the filter count and
the pixel count. -/
def buildFrames : List DefFrame → List (Int × Nat) → Nat → Nat → Nat →
    List GridFrame × List (Int × Nat) × Nat × Nat
  | [], filters, filterCount, pixelCount, _ => ([], filters, filterCount, pixelCount)
  | f :: rest, filters, filterCount, pixelCount, frameIndex =>
    match lookupKey f.filterId filters with
    | some fi =>
      let r := buildFrames rest filters filterCount (pixelCount + f.npix) (frameIndex + 1)
      (⟨f.id, f.filterId, f.psf, f.wcs, pixelCount, f.npix, fi, frameIndex⟩ :: r.1,
       r.2.1, r.2.2.1, r.2.2.2)
    | none =>
      let r := buildFrames rest ((f.filterId, filterCount) :: filters)
          (filterCount + 1) (pixelCount + f.npix) (frameIndex + 1)
      (⟨f.id, f.filterId, f.psf, f.wcs, pixelCount, f.npix, filterCount, frameIndex⟩ :: r.1,
       r.2.1, r.2.2.1, r.2.2.2)

/-- The object loop of `initializeGrid` combined with the component-reference
assignment done by the three `transferComponents` calls: each grid object
copies the definition object's identifier and basis and holds the per-kind
deduplicated component references (the source ranges are filled in by the
source loop). -/
def buildObjects : List DefObject → List (Option Nat) → List (Option Nat) →
    List (Option Nat) → List GridObject
  | o :: os, p :: ps, r :: rs, e :: es =>
    ⟨o.id, o.basis, p, r, e, 0, 0⟩ :: buildObjects os ps rs es
  | _, _, _, _ => []

/-- The second half of `grid::Source::Source` (Grid.cc:213-229): the localized
PSF (computed by dereferencing the object's position component) and the derived
basis — the object's basis convolved with the localized PSF when both exist,
the bare object basis when the frame has no PSF, and a failure when the object
has no basis and the frame no PSF. -/
def mkSourcePsfBasis (f : GridFrame) (objectId : Int) (hasTransform : Bool)
    (basis : Option Nat) (posc : Option GridComponent) : Except MFError Source :=
  match f.psf with
  | some p =>
    match posc with
    | none => .error MFError.nullPositionDeref
    | some _ =>
      match basis with
      | some b => .ok ⟨f.frameIndex, objectId, hasTransform, some p, some (.convolved b p)⟩
      | none => .ok ⟨f.frameIndex, objectId, hasTransform, some p, none⟩
  | none =>
    match basis with
    | some b => .ok ⟨f.frameIndex, objectId, hasTransform, none, some (.bare b)⟩
    | none => .error MFError.missingBasisOrPsf

/-- `grid::Source::Source` (Grid.cc:189-230): checks WCS-presence consistency
between the definition and the frame (dereferencing the object's position
component to linearize the transforms where the C++ does), then computes the
localized PSF and the source basis. -/
def mkSource (wcs : Option Nat) (f : GridFrame) (objectId : Int)
    (basis : Option Nat) (posc : Option GridComponent) : Except MFError Source :=
  match wcs with
  | some _ =>
    if f.wcs.isNone then .error MFError.inconsistentWcsFrameMissing
    else
      match posc with
      | none => .error MFError.nullPositionDeref
      | some _ => mkSourcePsfBasis f objectId true basis posc
  | none =>
    if f.wcs.isSome then .error MFError.inconsistentWcsFrameHas
    else mkSourcePsfBasis f objectId false basis posc

/-- Resolves an object's component reference against the grid-side store. -/
def resolveComponent (store : List GridComponent) (ref : Option Nat) :
    Option GridComponent :=
  ref.bind fun ix => store[ix]?

/-- The inner frame loop of the source construction
(`new (output.sources._last++) grid::Source(*j, *i, output.getWcs())`): builds
one source per frame in frame-array order.  On a throwing source constructor
the error carries the cursor `sources._last` relative to this object's range:
the cursor was advanced by the placement-new expression *before* the
constructor ran, so it is one past the elements actually constructed. -/
def buildSourcesForFrames (wcs : Option Nat) (posStore : List GridComponent) :
    List GridFrame → GridObject → Except (MFError × Nat) (List Source)
  | [], _ => .ok []
  | f :: rest, o =>
    match mkSource wcs f o.id o.basis (resolveComponent posStore o.position) with
    | .error e => .error (e, 1)
    | .ok s =>
      match buildSourcesForFrames wcs posStore rest o with
      | .error (e, cur) => .error (e, cur + 1)
      | .ok ss => .ok (s :: ss)

/-- The outer object loop of the source construction: validates each object,
then builds its contiguous source range.  `validate` is Modelled from the
spec: `grid::Object::validate()`'s body lives in a header that is not in the
tree; per the spec, "an Object with no basis must pair with Frames that all
supply a PSF — else fail".  On failure the error carries the absolute number
of sources actually constructed and the absolute cursor `sources._last`. -/
def buildAllSources (wcs : Option Nat) (posStore : List GridComponent)
    (frames : List GridFrame) :
    List GridObject → Nat → Except (MFError × Nat × Nat) (List GridObject × List Source)
  | [], _ => .ok ([], [])
  | o :: rest, base =>
    if o.basis = none ∧ frames.any (fun f => f.psf.isNone) then
      .error (MFError.missingBasisOrPsf, base, base)
    else
      match buildSourcesForFrames wcs posStore frames o with
      | .error (e, cur) => .error (e, base + cur - 1, base + cur)
      | .ok ss =>
        let o' := { o with sourcesFirst := base, sourcesLast := base + frames.length }
        match buildAllSources wcs posStore frames rest (base + frames.length) with
        | .error err => .error err
        | .ok (os, srcs) => .ok (o' :: os, ss ++ srcs)

/-- The partial-construction state at the moment an exception escapes
`initializeGrid`: how many elements of each kind were actually constructed,
and where each array's `_last` cursor stands. -/
structure FailInfo where
  framesCursor : Nat
  objectsCursor : Nat
  sourcesConstructed : Nat
  sourcesCursor : Nat
deriving DecidableEq, Repr

/-- Element kinds of the arena, for the destruction log. -/
inductive ElemKind where
  | source
  | object
  | frame
deriving DecidableEq, Repr

/-- `Initializer::destroyGrid`: destroys the `[_first, _last)` range of each
array with `std::for_each`, sources first, then objects, then frames.  The log
records each destructor call as (kind, index). -/
def destroyGrid (fi : FailInfo) : List (ElemKind × Nat) :=
  ((List.range fi.sourcesCursor).map fun i => (ElemKind.source, i)) ++
  ((List.range fi.objectsCursor).map fun i => (ElemKind.object, i)) ++
  ((List.range fi.framesCursor).map fun i => (ElemKind.frame, i))

/-- `Grid::Grid` + `Initializer::initializeGrid`: frames, then objects, then
the three per-kind component transfers (Position, Radius, Ellipticity), then
per object validation and source construction.  On failure the error carries
the `FailInfo` snapshot that `destroyGrid` is invoked on. -/
def defComps (d : Definition) (E : ParameterType) : List (Option DefComponent) :=
  d.objects.map fun o => o.component E

/-- The Position transfer of `initializeGrid`, starting the running parameter
count at 0. -/
def posTransfer (d : Definition) :
    List GridComponent × List (DefComponent × Nat) × Nat × List (Option Nat) :=
  transferComponentsToGrid .POSITION (defComps d .POSITION) [] [] 0

/-- The Radius transfer, continuing the running parameter count. -/
def radTransfer (d : Definition) :
    List GridComponent × List (DefComponent × Nat) × Nat × List (Option Nat) :=
  transferComponentsToGrid .RADIUS (defComps d .RADIUS) [] [] (posTransfer d).2.2.1

/-- The Ellipticity transfer, continuing the running parameter count. -/
def ellTransfer (d : Definition) :
    List GridComponent × List (DefComponent × Nat) × Nat × List (Option Nat) :=
  transferComponentsToGrid .ELLIPTICITY (defComps d .ELLIPTICITY) [] [] (radTransfer d).2.2.1

/-- The per-kind transfer, in the fixed kind order Position, Radius,
Ellipticity of `initializeGrid`. -/
def transferOf (d : Definition) :
    ParameterType → List GridComponent × List (DefComponent × Nat) × Nat × List (Option Nat)
  | .POSITION => posTransfer d
  | .RADIUS => radTransfer d
  | .ELLIPTICITY => ellTransfer d

/-- The grid frames built by the frame loop of `initializeGrid`. -/
def gridFramesOf (d : Definition) : List GridFrame :=
  (buildFrames d.frames [] 0 0 0).1

/-- The grid objects built by the object loop of `initializeGrid`, with the
component references assigned by the three transfers. -/
def gridObjectsOf (d : Definition) : List GridObject :=
  buildObjects d.objects (posTransfer d).2.2.2 (radTransfer d).2.2.2 (ellTransfer d).2.2.2

def makeGrid (d : Definition) : Except (MFError × FailInfo) Grid :=
  match buildAllSources d.wcs (posTransfer d).1 (gridFramesOf d) (gridObjectsOf d) 0 with
  | .error (e, constructed, cursor) =>
    .error (e, ⟨(gridFramesOf d).length, (gridObjectsOf d).length, constructed, cursor⟩)
  | .ok (objs, srcs) =>
    .ok ⟨d.wcs, gridFramesOf d, objs, srcs,
         (posTransfer d).1, (radTransfer d).1, (ellTransfer d).1,
         (ellTransfer d).2.2.1,
         (buildFrames d.frames [] 0 0 0).2.2.1, (buildFrames d.frames [] 0 0 0).2.2.2⟩

/-- Association-list lookup for the reverse dedup map, keyed on the grid-side
store index (the model of the grid component's address). -/
def lookupDef (t : Nat) : List (Nat × DefComponent) → Option DefComponent
  | [] => none
  | (k, v) :: rest => if k = t then some v else lookupDef t rest

/-- The definition component created on first sight of a grid component in the
reverse transfer: `definition::ParameterComponent<E>::make(value, active)`
followed by `readParameters(paramIter + offset, value)` when a parameter
buffer is supplied and the component is active.  The fresh instance's identity
tag is the grid component's store index. -/
def mkRevComp (E : ParameterType) (buf : Option (List Int)) (gix : Nat)
    (gc : GridComponent) : DefComponent :=
  { tag := gix, active := gc.active,
    value :=
      match buf with
      | some b =>
        if gc.active then
          (List.range E.SIZE).map fun k => b.getD (gc.offset.toNat + k) 0
        else gc.value
      | none => gc.value }

/-- Reverse dedup transfer for one kind
(`Initializer::transferComponents(Grid const &, Definition &, double const *)`):
walks the grid objects' (resolved) component references; the first sight of a
grid component creates a fresh definition component (`make(value, active)`,
tag = the grid component's store index), overwriting its value with `SIZE`
scalars read at the component's stored offset when a parameter buffer is
supplied and the component is active; a repeat sight returns the previously
created component. -/
def transferComponentsToDef (E : ParameterType) (buf : Option (List Int)) :
    List (Option (Nat × GridComponent)) → List (Nat × DefComponent) →
    List (Nat × DefComponent) × List (Option DefComponent)
  | [], assoc => (assoc, [])
  | none :: rest, assoc =>
    let r := transferComponentsToDef E buf rest assoc
    (r.1, none :: r.2)
  | some (gix, gc) :: rest, assoc =>
    match lookupDef gix assoc with
    | some c =>
      let r := transferComponentsToDef E buf rest assoc
      (r.1, some c :: r.2)
    | none =>
      let c := mkRevComp E buf gix gc
      let r := transferComponentsToDef E buf rest ((gix, c) :: assoc)
      (r.1, some c :: r.2)

/-- The grid objects' component references of a kind, each resolved against
the store (a shared pointer with the heap object behind it); this is what the
reverse transfer walks. -/
def gridRefsOf (g : Grid) (E : ParameterType) : List (Option (Nat × GridComponent)) :=
  g.objects.map fun o =>
    (o.component E).bind fun ix => ((g.store E)[ix]?).map fun c => (ix, c)

/-- Attaches the per-kind reconstructed components to the definition
objects. -/
def attachComponents : List DefObject → List (Option DefComponent) →
    List (Option DefComponent) → List (Option DefComponent) → List DefObject
  | o :: os, p :: ps, r :: rs, e :: es =>
    { o with position := p, radius := r, ellipticity := e } :: attachComponents os ps rs es
  | _, _, _, _ => []

/-- `Initializer::makeDefinition`: clones the grid's WCS (dereferencing the
shared pointer unconditionally — an empty pointer is a fatal dereference),
copies frames and objects, and runs the three reverse component transfers. -/
def makeDefinition (g : Grid) (buf : Option (List Int)) : Except MFError Definition :=
  match g.wcs with
  | none => .error MFError.nullWcsDeref
  | some w =>
    .ok ⟨some w,
         g.frames.map fun f => DefFrame.mk f.id f.filterId f.pixelCount f.psf f.wcs,
         attachComponents (g.objects.map fun o => DefObject.mk o.id o.basis none none none)
           (transferComponentsToDef .POSITION buf (gridRefsOf g .POSITION) []).2
           (transferComponentsToDef .RADIUS buf (gridRefsOf g .RADIUS) []).2
           (transferComponentsToDef .ELLIPTICITY buf (gridRefsOf g .ELLIPTICITY) []).2⟩

/-- Outcome of `find`: the matching element, the not-found throw, or an
out-of-bounds read of `iter1->id` (undefined behaviour in the C++). -/
inductive FindOutcome (T : Type) where
  | found (e : T)
  | notFound
  | oobRead (ix : Nat)
deriving DecidableEq, Repr

/-- The hand-written lower-bound loop of `find` (Grid.cc:247-257): `iter1` and
`count` delimit the remaining range; each step probes `iter1 + count / 2`.
The probe of an index outside the array (impossible while `iter1 + count ≤
size`) returns `iter1` as junk to keep the function total. -/
def lowerBoundLoop {T : Type} (getId : T → Int) (arr : List T) (id : Int)
    (iter1 count : Nat) : Nat :=
  if _hc : count = 0 then iter1
  else
    match arr[iter1 + count / 2]? with
    | none => iter1
    | some e =>
      if getId e < id then
        lowerBoundLoop getId arr id (iter1 + count / 2 + 1) (count - count / 2 - 1)
      else
        lowerBoundLoop getId arr id iter1 (count / 2)
termination_by count
decreasing_by
  · omega
  · omega

/-- `find(array, id)` (Grid.cc:240-265): runs the lower-bound loop over the
whole array, then compares `iter1->id` with the queried id — a read that is
out of bounds whenever `iter1` lands on `array.end()`. -/
def find {T : Type} (getId : T → Int) (arr : List T) (id : Int) : FindOutcome T :=
  match arr[lowerBoundLoop getId arr id 0 arr.length]? with
  | none => .oobRead (lowerBoundLoop getId arr id 0 arr.length)
  | some e => if getId e = id then .found e else .notFound

/-- The parameter component (instance) held by the `i`-th definition object
for kind `E`, if any. -/
def defComponentAt (d : Definition) (E : ParameterType) (i : Nat) : Option DefComponent :=
  (d.objects[i]?).bind fun o => o.component E

/-- The grid-side component reference (store index) held by the `i`-th grid
object for kind `E`, if any. -/
def gridRefAt (g : Grid) (E : ParameterType) (i : Nat) : Option Nat :=
  (g.objects[i]?).bind fun o => o.component E

/-- Whether definition objects `i` and `j` hold the same kind-`E` parameter
component instance. -/
def defShares (d : Definition) (E : ParameterType) (i j : Nat) : Bool :=
  match defComponentAt d E i, defComponentAt d E j with
  | some c₁, some c₂ => decide (c₁ = c₂)
  | _, _ => false

/-- Whether grid objects `i` and `j` reference the same kind-`E` grid
component instance. -/
def gridShares (g : Grid) (E : ParameterType) (i j : Nat) : Bool :=
  match gridRefAt g E i, gridRefAt g E j with
  | some ix₁, some ix₂ => decide (ix₁ = ix₂)
  | _, _ => false

/-- The `(offset, Kind.size)` ranges of the active components of all three
kinds, in creation order, kinds walked Position, Radius, Ellipticity. -/
def activeRanges (g : Grid) : List (Nat × Nat) :=
  ((g.positions.filter (·.active)).map fun c => (c.offset.toNat, ParameterType.POSITION.SIZE)) ++
  ((g.radii.filter (·.active)).map fun c => (c.offset.toNat, ParameterType.RADIUS.SIZE)) ++
  ((g.ellipticities.filter (·.active)).map fun c => (c.offset.toNat, ParameterType.ELLIPTICITY.SIZE))

/-- The multiset of flat parameter slots covered by a list of
`(offset, size)` ranges, each contributing `[offset, offset+size)`. -/
def coveredSlots (rs : List (Nat × Nat)) : List Nat :=
  rs.flatMap fun r => List.range' r.1 r.2

/-- A concrete entry type for instantiating `find` (the template is
instantiated at `grid::Object` and `grid::Frame`, both searched through their
`id` field). -/
structure FindEntry where
  id : Int
  val : Nat
deriving DecidableEq, Repr

/-! ## Lemmas: the forward dedup transfer -/

theorem transferToGrid_nil (E : ParameterType) (store : List GridComponent)
    (assoc : List (DefComponent × Nat)) (pc : Nat) :
    transferComponentsToGrid E [] store assoc pc = (store, assoc, pc, []) := rfl

theorem transferToGrid_cons_none (E : ParameterType)
    (rest : List (Option DefComponent)) (store : List GridComponent)
    (assoc : List (DefComponent × Nat)) (pc : Nat) :
    transferComponentsToGrid E (none :: rest) store assoc pc =
      ((transferComponentsToGrid E rest store assoc pc).1,
       (transferComponentsToGrid E rest store assoc pc).2.1,
       (transferComponentsToGrid E rest store assoc pc).2.2.1,
       none :: (transferComponentsToGrid E rest store assoc pc).2.2.2) := rfl

theorem transferToGrid_cons_found (E : ParameterType) (c : DefComponent)
    (rest : List (Option DefComponent)) (store : List GridComponent)
    (assoc : List (DefComponent × Nat)) (pc : Nat) (ix : Nat)
    (hlk : lookupKey c assoc = some ix) :
    transferComponentsToGrid E (some c :: rest) store assoc pc =
      ((transferComponentsToGrid E rest store assoc pc).1,
       (transferComponentsToGrid E rest store assoc pc).2.1,
       (transferComponentsToGrid E rest store assoc pc).2.2.1,
       some ix :: (transferComponentsToGrid E rest store assoc pc).2.2.2) := by
  conv_lhs => rw [transferComponentsToGrid]
  rw [hlk]

/-- The grid component created on first sight in the forward transfer:
active flag and value copied, offset the running parameter count when active
and the `-1` sentinel when not. -/
def mkFwdComp (c : DefComponent) (pc : Nat) : GridComponent :=
  { active := c.active, value := c.value,
    offset := if c.active then (pc : Int) else -1 }

theorem transferToGrid_cons_new (E : ParameterType) (c : DefComponent)
    (rest : List (Option DefComponent)) (store : List GridComponent)
    (assoc : List (DefComponent × Nat)) (pc : Nat)
    (hlk : lookupKey c assoc = none) :
    transferComponentsToGrid E (some c :: rest) store assoc pc =
      ((transferComponentsToGrid E rest (store ++ [mkFwdComp c pc])
          ((c, store.length) :: assoc) (if c.active then pc + E.SIZE else pc)).1,
       (transferComponentsToGrid E rest (store ++ [mkFwdComp c pc])
          ((c, store.length) :: assoc) (if c.active then pc + E.SIZE else pc)).2.1,
       (transferComponentsToGrid E rest (store ++ [mkFwdComp c pc])
          ((c, store.length) :: assoc) (if c.active then pc + E.SIZE else pc)).2.2.1,
       some store.length ::
         (transferComponentsToGrid E rest (store ++ [mkFwdComp c pc])
          ((c, store.length) :: assoc) (if c.active then pc + E.SIZE else pc)).2.2.2) := by
  conv_lhs => rw [transferComponentsToGrid]
  rw [hlk]
  rfl

theorem checkOffsets_append (E : ParameterType) (l₁ l₂ : List GridComponent) (s : Nat) :
    checkOffsets E (l₁ ++ l₂) s =
      match checkOffsets E l₁ s with
      | some m => checkOffsets E l₂ m
      | none => none := by
  induction l₁ generalizing s with
  | nil => rfl
  | cons c rest ih =>
    simp only [List.cons_append, checkOffsets]
    by_cases hact : c.active <;> simp only [hact, if_true, if_false]
    · by_cases hoff : c.offset = (s : Int) <;> simp [hoff, ih]
    · by_cases hoff : c.offset = -1 <;> simp [hoff, ih]

/-- Invariant tying the forward dedup map to the grid-side store: every mapped
definition component has its grid image in the store with the same active flag
and value, and distinct definition components are never mapped to the same
grid instance. -/
structure FwdInv (store : List GridComponent) (assoc : List (DefComponent × Nat)) : Prop where
  val : ∀ c ix, lookupKey c assoc = some ix →
    ∃ gc, store[ix]? = some gc ∧ gc.active = c.active ∧ gc.value = c.value
  inj : ∀ c₁ c₂ ix, lookupKey c₁ assoc = some ix → lookupKey c₂ assoc = some ix → c₁ = c₂

theorem lookupKey_cons_ne {α : Type} [DecidableEq α] (t k : α) (v : Nat)
    (assoc : List (α × Nat)) (hne : k ≠ t) :
    lookupKey t ((k, v) :: assoc) = lookupKey t assoc := by
  simp [lookupKey, hne]

/-- Master lemma for the forward transfer: the dedup invariant is preserved,
the map and the store only grow, each input slot gets the reference recorded
in the final map, and the offset layout stays contiguous. -/
theorem transferToGrid_spec (E : ParameterType) :
    ∀ (cs : List (Option DefComponent)) (store store' : List GridComponent)
      (assoc assoc' : List (DefComponent × Nat)) (pc pc' : Nat)
      (outs : List (Option Nat)),
    transferComponentsToGrid E cs store assoc pc = (store', assoc', pc', outs) →
    FwdInv store assoc →
    FwdInv store' assoc' ∧
    (∀ c ix, lookupKey c assoc = some ix → lookupKey c assoc' = some ix) ∧
    (∀ i, i < store.length → store'[i]? = store[i]?) ∧
    outs.length = cs.length ∧
    (∀ i : Nat, cs[i]? = some none → outs[i]? = some none) ∧
    (∀ (i : Nat) (c : DefComponent), cs[i]? = some (some c) →
      ∃ ix : Nat, outs[i]? = some (some ix) ∧ lookupKey c assoc' = some ix) ∧
    (∀ s₀, checkOffsets E store s₀ = some pc → checkOffsets E store' s₀ = some pc') := by
  intro cs
  induction cs with
  | nil =>
    intro store store' assoc assoc' pc pc' outs h hinv
    rw [transferToGrid_nil] at h
    simp only [Prod.mk.injEq] at h
    obtain ⟨rfl, rfl, rfl, rfl⟩ := h
    refine ⟨hinv, fun c ix h => h, fun i _ => rfl, rfl, ?_, ?_, fun s₀ h => h⟩
    · intro i h
      simp at h
    · intro i c h
      simp at h
  | cons oc rest ih =>
    intro store store' assoc assoc' pc pc' outs h hinv
    match oc with
    | none =>
      rw [transferToGrid_cons_none] at h
      rcases hr : transferComponentsToGrid E rest store assoc pc with ⟨s₁, a₁, p₁, o₁⟩
      rw [hr] at h
      simp only [Prod.mk.injEq] at h
      obtain ⟨rfl, rfl, rfl, rfl⟩ := h
      obtain ⟨hI, hM, hP, hL, hN, hS, hO⟩ := ih store s₁ assoc a₁ pc p₁ o₁ hr hinv
      refine ⟨hI, hM, hP, by simp [hL], ?_, ?_, hO⟩
      · intro i hcs
        match i with
        | 0 => simp
        | i + 1 =>
          simp only [List.getElem?_cons_succ] at hcs ⊢
          exact hN i hcs
      · intro i c hcs
        match i with
        | 0 => simp at hcs
        | i + 1 =>
          simp only [List.getElem?_cons_succ] at hcs ⊢
          exact hS i c hcs
    | some c =>
      rcases hlk : lookupKey c assoc with _ | ix
      · -- first sight: a fresh grid component is created
        rw [transferToGrid_cons_new E c rest store assoc pc hlk] at h
        rcases hr : transferComponentsToGrid E rest (store ++ [mkFwdComp c pc])
            ((c, store.length) :: assoc) (if c.active then pc + E.SIZE else pc)
          with ⟨s₁, a₁, p₁, o₁⟩
        rw [hr] at h
        simp only [Prod.mk.injEq] at h
        obtain ⟨rfl, rfl, rfl, rfl⟩ := h
        have hinv₂ : FwdInv (store ++ [mkFwdComp c pc]) ((c, store.length) :: assoc) := by
          constructor
          · intro c₀ ix₀ hl
            by_cases hceq : c = c₀
            · subst hceq
              simp only [lookupKey, if_pos rfl] at hl
              obtain rfl := Option.some.inj hl
              exact ⟨mkFwdComp c pc, List.getElem?_concat_length store _, rfl, rfl⟩
            · rw [lookupKey_cons_ne c₀ c store.length assoc hceq] at hl
              obtain ⟨gc, hgc, ha, hv⟩ := hinv.val c₀ ix₀ hl
              have hlt : ix₀ < store.length := by
                by_contra hge
                rw [List.getElem?_eq_none (by omega)] at hgc
                exact Option.noConfusion hgc
              exact ⟨gc, by rw [List.getElem?_append_left hlt]; exact hgc, ha, hv⟩
          · intro c₁ c₂ ix₀ h₁ h₂
            by_cases he₁ : c = c₁ <;> by_cases he₂ : c = c₂
            · rw [← he₁, ← he₂]
            · subst he₁
              simp only [lookupKey, if_pos rfl] at h₁
              obtain rfl := Option.some.inj h₁
              rw [lookupKey_cons_ne c₂ c store.length assoc he₂] at h₂
              obtain ⟨gc, hgc, _, _⟩ := hinv.val c₂ store.length h₂
              have hlt : store.length < store.length := by
                by_contra hge
                rw [List.getElem?_eq_none (by omega)] at hgc
                exact Option.noConfusion hgc
              exact absurd hlt (by omega)
            · subst he₂
              simp only [lookupKey, if_pos rfl] at h₂
              obtain rfl := Option.some.inj h₂
              rw [lookupKey_cons_ne c₁ c store.length assoc he₁] at h₁
              obtain ⟨gc, hgc, _, _⟩ := hinv.val c₁ store.length h₁
              have hlt : store.length < store.length := by
                by_contra hge
                rw [List.getElem?_eq_none (by omega)] at hgc
                exact Option.noConfusion hgc
              exact absurd hlt (by omega)
            · rw [lookupKey_cons_ne c₁ c store.length assoc he₁] at h₁
              rw [lookupKey_cons_ne c₂ c store.length assoc he₂] at h₂
              exact hinv.inj c₁ c₂ ix₀ h₁ h₂
        obtain ⟨hI, hM, hP, hL, hN, hS, hO⟩ := ih _ s₁ _ a₁ _ p₁ o₁ hr hinv₂
        have hMono : ∀ c₀ ix₀, lookupKey c₀ assoc = some ix₀ → lookupKey c₀ a₁ = some ix₀ := by
          intro c₀ ix₀ hl
          have hne : c ≠ c₀ := by
            intro hceq
            rw [← hceq] at hl
            rw [hlk] at hl
            exact Option.noConfusion hl
          exact hM c₀ ix₀ (by rw [lookupKey_cons_ne c₀ c store.length assoc hne]; exact hl)
        refine ⟨hI, hMono, ?_, by simp [hL], ?_, ?_, ?_⟩
        · intro i hi
          rw [hP i (by simp; omega)]
          exact List.getElem?_append_left hi
        · intro i hcs
          match i with
          | 0 => simp at hcs
          | i + 1 =>
            simp only [List.getElem?_cons_succ] at hcs ⊢
            exact hN i hcs
        · intro i c₀ hcs
          match i with
          | 0 =>
            simp only [List.getElem?_cons_zero, Option.some.injEq] at hcs
            subst hcs
            refine ⟨store.length, by simp, ?_⟩
            exact hM c store.length (by simp [lookupKey])
          | i + 1 =>
            simp only [List.getElem?_cons_succ] at hcs ⊢
            exact hS i c₀ hcs
        · intro s₀ hco
          refine hO s₀ ?_
          rw [checkOffsets_append, hco]
          by_cases hact : c.active
          · simp [checkOffsets, mkFwdComp, hact]
          · simp [checkOffsets, mkFwdComp, hact]
      · -- repeat sight: the previously created component is reused
        rw [transferToGrid_cons_found E c rest store assoc pc ix hlk] at h
        rcases hr : transferComponentsToGrid E rest store assoc pc with ⟨s₁, a₁, p₁, o₁⟩
        rw [hr] at h
        simp only [Prod.mk.injEq] at h
        obtain ⟨rfl, rfl, rfl, rfl⟩ := h
        obtain ⟨hI, hM, hP, hL, hN, hS, hO⟩ := ih store s₁ assoc a₁ pc p₁ o₁ hr hinv
        refine ⟨hI, hM, hP, by simp [hL], ?_, ?_, hO⟩
        · intro i hcs
          match i with
          | 0 => simp at hcs
          | i + 1 =>
            simp only [List.getElem?_cons_succ] at hcs ⊢
            exact hN i hcs
        · intro i c₀ hcs
          match i with
          | 0 =>
            simp only [List.getElem?_cons_zero, Option.some.injEq] at hcs
            subst hcs
            exact ⟨ix, by simp, hM c ix hlk⟩
          | i + 1 =>
            simp only [List.getElem?_cons_succ] at hcs ⊢
            exact hS i c₀ hcs

/-! ## Lemmas: offset layout -/

/-- A store whose offsets check out from `s` to `e` has its active components
covering exactly the slots `[s, e)`, in order, and carries the `-1` sentinel on
every inactive component. -/
theorem checkOffsets_cover (E : ParameterType) :
    ∀ (l : List GridComponent) (s e : Nat),
    checkOffsets E l s = some e →
    ((l.filter (·.active)).flatMap fun c => List.range' c.offset.toNat E.SIZE) =
      List.range' s (e - s) ∧
    s ≤ e ∧
    (∀ c ∈ l, c.active = false → c.offset = -1) := by
  intro l
  induction l with
  | nil =>
    intro s e h
    simp only [checkOffsets, Option.some.injEq] at h
    subst h
    simp
  | cons c rest ih =>
    intro s e h
    simp only [checkOffsets] at h
    by_cases hact : c.active
    · rw [if_pos hact] at h
      by_cases hoff : c.offset = (s : Int)
      · rw [if_pos hoff] at h
        obtain ⟨hcov, hle, hsen⟩ := ih (s + E.SIZE) e h
        refine ⟨?_, by omega, ?_⟩
        · rw [List.filter_cons_of_pos (by simp [hact]), List.flatMap_cons, hcov, hoff]
          rw [Int.toNat_natCast]
          have := List.range'_append s E.SIZE (e - (s + E.SIZE)) 1
          simp only [Nat.one_mul] at this
          rw [this]
          congr 1
          omega
        · intro c₀ hc₀ hinact
          rw [List.mem_cons] at hc₀
          rcases hc₀ with rfl | hc₀
          · rw [hact] at hinact
            exact absurd hinact (by simp)
          · exact hsen c₀ hc₀ hinact
      · rw [if_neg hoff] at h
        exact absurd h (by simp)
    · rw [if_neg hact] at h
      by_cases hoff : c.offset = -1
      · rw [if_pos hoff] at h
        obtain ⟨hcov, hle, hsen⟩ := ih s e h
        refine ⟨?_, hle, ?_⟩
        · rw [List.filter_cons_of_neg (by simp [hact]), hcov]
        · intro c₀ hc₀ hinact
          rw [List.mem_cons] at hc₀
          rcases hc₀ with rfl | hc₀
          · exact hoff
          · exact hsen c₀ hc₀ hinact
      · rw [if_neg hoff] at h
        exact absurd h (by simp)

/-! ## Lemmas: grid assembly -/

theorem buildFrames_spec :
    ∀ (fs : List DefFrame) (filters : List (Int × Nat)) (fc pix idx : Nat),
    (buildFrames fs filters fc pix idx).1.length = fs.length ∧
    ∀ (j : Nat) (f : DefFrame), fs[j]? = some f →
      ∃ gf : GridFrame, (buildFrames fs filters fc pix idx).1[j]? = some gf ∧
        gf.frameIndex = idx + j ∧ gf.id = f.id ∧ gf.filterId = f.filterId ∧
        gf.psf = f.psf ∧ gf.wcs = f.wcs ∧ gf.pixelCount = f.npix := by
  intro fs
  induction fs with
  | nil =>
    intro filters fc pix idx
    refine ⟨rfl, ?_⟩
    intro j f h
    simp at h
  | cons f rest ih =>
    intro filters fc pix idx
    rcases hlk : lookupKey f.filterId filters with _ | fi <;>
      simp only [buildFrames, hlk] <;>
      refine ⟨by simp [(ih _ _ _ _).1], ?_⟩ <;>
      intro j f₀ hj <;>
      match j with
      | 0 =>
        simp only [List.getElem?_cons_zero, Option.some.injEq] at hj
        subst hj
        exact ⟨_, List.getElem?_cons_zero, by simp, rfl, rfl, rfl, rfl, rfl⟩
      | j + 1 =>
        simp only [List.getElem?_cons_succ] at hj ⊢
        obtain ⟨gf, hgf, hix, hrest⟩ := (ih _ _ _ _).2 j f₀ hj
        exact ⟨gf, hgf, by omega, hrest⟩

theorem buildObjects_spec :
    ∀ (os : List DefObject) (ps rs es : List (Option Nat)),
    ps.length = os.length → rs.length = os.length → es.length = os.length →
    (buildObjects os ps rs es).length = os.length ∧
    ∀ (i : Nat) (o : DefObject), os[i]? = some o →
      ∃ go : GridObject, (buildObjects os ps rs es)[i]? = some go ∧
        go.id = o.id ∧ go.basis = o.basis ∧
        some go.position = ps[i]? ∧ some go.radius = rs[i]? ∧
        some go.ellipticity = es[i]? := by
  intro os
  induction os with
  | nil =>
    intro ps rs es hp hr he
    simp only [List.length_nil, List.length_eq_zero] at hp hr he
    subst hp; subst hr; subst he
    exact ⟨rfl, by intro i o h; simp at h⟩
  | cons o rest ih =>
    intro ps rs es hp hr he
    match ps, rs, es with
    | p :: ps, r :: rs, e :: es =>
      simp only [List.length_cons, Nat.add_right_cancel_iff] at hp hr he
      obtain ⟨hL, hF⟩ := ih ps rs es hp hr he
      refine ⟨by simp [buildObjects, hL], ?_⟩
      intro i o₀ hi
      match i with
      | 0 =>
        simp only [List.getElem?_cons_zero, Option.some.injEq] at hi
        subst hi
        exact ⟨_, List.getElem?_cons_zero, rfl, rfl, by simp, by simp, by simp⟩
      | i + 1 =>
        simp only [buildObjects, List.getElem?_cons_succ] at hi ⊢
        exact hF i o₀ hi

theorem attachComponents_spec :
    ∀ (os : List DefObject) (ps rs es : List (Option DefComponent)),
    ps.length = os.length → rs.length = os.length → es.length = os.length →
    (attachComponents os ps rs es).length = os.length ∧
    ∀ (i : Nat) (o : DefObject), os[i]? = some o →
      ∃ o' : DefObject, (attachComponents os ps rs es)[i]? = some o' ∧
        o'.id = o.id ∧ o'.basis = o.basis ∧
        some o'.position = ps[i]? ∧ some o'.radius = rs[i]? ∧
        some o'.ellipticity = es[i]? := by
  intro os
  induction os with
  | nil =>
    intro ps rs es hp hr he
    simp only [List.length_nil, List.length_eq_zero] at hp hr he
    subst hp; subst hr; subst he
    exact ⟨rfl, by intro i o h; simp at h⟩
  | cons o rest ih =>
    intro ps rs es hp hr he
    match ps, rs, es with
    | p :: ps, r :: rs, e :: es =>
      simp only [List.length_cons, Nat.add_right_cancel_iff] at hp hr he
      obtain ⟨hL, hF⟩ := ih ps rs es hp hr he
      refine ⟨by simp [attachComponents, hL], ?_⟩
      intro i o₀ hi
      match i with
      | 0 =>
        simp only [List.getElem?_cons_zero, Option.some.injEq] at hi
        subst hi
        exact ⟨_, List.getElem?_cons_zero, rfl, rfl, by simp, by simp, by simp⟩
      | i + 1 =>
        simp only [attachComponents, List.getElem?_cons_succ] at hi ⊢
        exact hF i o₀ hi

/-- Inversion of a successful `makeGrid`: the source loop succeeded and every
field of the grid is the corresponding construction stage. -/
theorem makeGrid_ok_elim (d : Definition) (g : Grid) (h : makeGrid d = .ok g) :
    ∃ (objs : List GridObject) (srcs : List Source),
      buildAllSources d.wcs (posTransfer d).1 (gridFramesOf d) (gridObjectsOf d) 0 =
        .ok (objs, srcs) ∧
      g = ⟨d.wcs, gridFramesOf d, objs, srcs,
           (posTransfer d).1, (radTransfer d).1, (ellTransfer d).1,
           (ellTransfer d).2.2.1,
           (buildFrames d.frames [] 0 0 0).2.2.1, (buildFrames d.frames [] 0 0 0).2.2.2⟩ := by
  rw [makeGrid] at h
  rcases hba : buildAllSources d.wcs (posTransfer d).1 (gridFramesOf d) (gridObjectsOf d) 0
    with ⟨e, constructed, cursor⟩ | ⟨objs, srcs⟩
  · rw [hba] at h
    exact absurd h (by simp)
  · rw [hba] at h
    simp only [Except.ok.injEq] at h
    exact ⟨objs, srcs, rfl, h.symm⟩

/-! ## Lemmas: source construction -/

theorem mkSourcePsfBasis_ok_fields (f : GridFrame) (oid : Int) (ht : Bool)
    (b : Option Nat) (posc : Option GridComponent) (s : Source)
    (h : mkSourcePsfBasis f oid ht b posc = .ok s) :
    s.frameIndex = f.frameIndex ∧ s.objectId = oid := by
  unfold mkSourcePsfBasis at h
  rcases hpsf : f.psf with _ | p <;> rw [hpsf] at h <;>
    rcases posc with _ | pc <;> rcases b with _ | bb <;>
    simp only [Except.ok.injEq] at h <;> first
    | (subst h; exact ⟨rfl, rfl⟩)
    | exact absurd h (by simp)

theorem mkSource_ok_fields (wcs : Option Nat) (f : GridFrame) (oid : Int)
    (b : Option Nat) (posc : Option GridComponent) (s : Source)
    (h : mkSource wcs f oid b posc = .ok s) :
    s.frameIndex = f.frameIndex ∧ s.objectId = oid := by
  unfold mkSource at h
  rcases wcs with _ | w <;> simp only [] at h
  · rcases hw : f.wcs.isSome with _ | _ <;> rw [hw] at h <;>
      simp only [if_true, if_false, Bool.false_eq_true] at h
    · exact mkSourcePsfBasis_ok_fields f oid false b posc s h
    · exact absurd h (by simp)
  · rcases hw : f.wcs.isNone with _ | _ <;> rw [hw] at h <;>
      simp only [if_true, if_false, Bool.false_eq_true] at h
    · rcases posc with _ | pc
      · exact absurd h (by simp)
      · exact mkSourcePsfBasis_ok_fields f oid true b (some pc) s h
    · exact absurd h (by simp)

/-- `mkSource` succeeds whenever WCS presence is consistent, the object has a
basis and the position component is resolvable. -/
theorem mkSource_ok_of (wcs : Option Nat) (f : GridFrame) (oid : Int)
    (bb : Nat) (pc : GridComponent)
    (hcons : f.wcs.isSome = wcs.isSome) :
    ∃ s : Source, mkSource wcs f oid (some bb) (some pc) = .ok s := by
  unfold mkSource
  rcases wcs with _ | w
  · simp only [Option.isSome_none] at hcons
    rw [hcons]
    simp only [Bool.false_eq_true, if_false]
    unfold mkSourcePsfBasis
    rcases f.psf with _ | p <;> exact ⟨_, rfl⟩
  · simp only [Option.isSome_some] at hcons
    have hnn : f.wcs.isNone = false := by
      rcases hfw : f.wcs with _ | x
      · rw [hfw] at hcons
        simp at hcons
      · rfl
    rw [hnn]
    simp only [Bool.false_eq_true, if_false]
    unfold mkSourcePsfBasis
    rcases f.psf with _ | p <;> exact ⟨_, rfl⟩

/-- The basis stored on a successfully constructed source: convolved with the
localized PSF when the frame has one, the bare object basis otherwise. -/
theorem mkSource_basis (wcs : Option Nat) (f : GridFrame) (oid : Int)
    (bb : Nat) (posc : Option GridComponent) (s : Source)
    (h : mkSource wcs f oid (some bb) posc = .ok s) :
    (∀ p, f.psf = some p → s.basis = some (SourceBasis.convolved bb p)) ∧
    (f.psf = none → s.basis = some (SourceBasis.bare bb)) := by
  have hps : mkSourcePsfBasis f oid true (some bb) posc = .ok s ∨
      mkSourcePsfBasis f oid false (some bb) posc = .ok s := by
    unfold mkSource at h
    rcases wcs with _ | w
    · rcases hw : f.wcs.isSome with _ | _ <;> rw [hw] at h <;>
        simp only [if_true, if_false, Bool.false_eq_true] at h
      · exact Or.inr h
      · exact absurd h (by simp)
    · rcases hw : f.wcs.isNone with _ | _ <;> rw [hw] at h <;>
        simp only [if_true, if_false, Bool.false_eq_true] at h
      · rcases posc with _ | pc
        · exact absurd h (by simp)
        · exact Or.inl h
      · exact absurd h (by simp)
  rcases hps with hps | hps <;>
  · unfold mkSourcePsfBasis at hps
    rcases hpsf : f.psf with _ | p <;> rw [hpsf] at hps
    · simp only [Except.ok.injEq] at hps
      subst hps
      refine ⟨?_, fun _ => rfl⟩
      intro p hp
      exact absurd hp (by simp)
    · rcases posc with _ | pc
      · exact absurd hps (by simp)
      · simp only [Except.ok.injEq] at hps
        subst hps
        refine ⟨?_, ?_⟩
        · intro p₀ hp₀
          obtain rfl := Option.some.inj hp₀
          rfl
        · intro hp₀
          exact absurd hp₀ (by simp)

theorem buildSourcesForFrames_ok :
    ∀ (wcs : Option Nat) (posStore : List GridComponent) (frames : List GridFrame)
      (o : GridObject) (ss : List Source),
    buildSourcesForFrames wcs posStore frames o = .ok ss →
    ss.length = frames.length ∧
    ∀ (j : Nat) (gf : GridFrame), frames[j]? = some gf →
      ∃ s : Source, ss[j]? = some s ∧
        mkSource wcs gf o.id o.basis (resolveComponent posStore o.position) = .ok s := by
  intro wcs posStore frames
  induction frames with
  | nil =>
    intro o ss h
    simp only [buildSourcesForFrames, Except.ok.injEq] at h
    subst h
    exact ⟨rfl, by intro j gf hj; simp at hj⟩
  | cons f rest ih =>
    intro o ss h
    rw [buildSourcesForFrames] at h
    rcases hmk : mkSource wcs f o.id o.basis (resolveComponent posStore o.position)
      with e | s₀ <;> rw [hmk] at h
    · exact absurd h (by simp)
    · rcases hr : buildSourcesForFrames wcs posStore rest o with ⟨e, cur⟩ | ss₁ <;>
        rw [hr] at h
      · exact absurd h (by simp)
      · simp only [Except.ok.injEq] at h
        subst h
        obtain ⟨hL, hF⟩ := ih o ss₁ hr
        refine ⟨by simp [hL], ?_⟩
        intro j gf hj
        match j with
        | 0 =>
          simp only [List.getElem?_cons_zero, Option.some.injEq] at hj
          subst hj
          exact ⟨s₀, List.getElem?_cons_zero, hmk⟩
        | j + 1 =>
          simp only [List.getElem?_cons_succ] at hj ⊢
          exact hF j gf hj

/-- `buildSourcesForFrames` succeeds when every frame's source constructor
succeeds. -/
theorem buildSourcesForFrames_ok_of :
    ∀ (wcs : Option Nat) (posStore : List GridComponent) (frames : List GridFrame)
      (o : GridObject),
    (∀ gf ∈ frames, ∃ s : Source,
      mkSource wcs gf o.id o.basis (resolveComponent posStore o.position) = .ok s) →
    ∃ ss : List Source, buildSourcesForFrames wcs posStore frames o = .ok ss := by
  intro wcs posStore frames
  induction frames with
  | nil =>
    intro o _
    exact ⟨[], rfl⟩
  | cons f rest ih =>
    intro o hall
    obtain ⟨s₀, hs₀⟩ := hall f (by simp)
    obtain ⟨ss₁, hss₁⟩ := ih o (fun gf hgf => hall gf (by simp [hgf]))
    refine ⟨s₀ :: ss₁, ?_⟩
    rw [buildSourcesForFrames, hs₀, hss₁]

theorem buildAllSources_ok (wcs : Option Nat) (posStore : List GridComponent)
    (frames : List GridFrame) :
    ∀ (os : List GridObject) (base : Nat) (os' : List GridObject) (srcs : List Source),
    buildAllSources wcs posStore frames os base = .ok (os', srcs) →
    os'.length = os.length ∧ srcs.length = os.length * frames.length ∧
    ∀ (i : Nat) (o : GridObject), os[i]? = some o →
      ∃ o' : GridObject, os'[i]? = some o' ∧
        o'.id = o.id ∧ o'.basis = o.basis ∧ o'.position = o.position ∧
        o'.radius = o.radius ∧ o'.ellipticity = o.ellipticity ∧
        o'.sourcesFirst = base + i * frames.length ∧
        o'.sourcesLast = base + i * frames.length + frames.length ∧
        ∀ (j : Nat) (gf : GridFrame), frames[j]? = some gf →
          ∃ s : Source, srcs[i * frames.length + j]? = some s ∧
            mkSource wcs gf o.id o.basis (resolveComponent posStore o.position) = .ok s := by
  intro os
  induction os with
  | nil =>
    intro base os' srcs h
    simp only [buildAllSources, Except.ok.injEq, Prod.mk.injEq] at h
    obtain ⟨rfl, rfl⟩ := h
    exact ⟨rfl, by simp, by intro i o h; simp at h⟩
  | cons o rest ih =>
    intro base os' srcs h
    rw [buildAllSources] at h
    by_cases hval : o.basis = none ∧ frames.any (fun f => f.psf.isNone) = true
    · rw [if_pos hval] at h
      exact absurd h (by simp)
    · rw [if_neg hval] at h
      rcases hss : buildSourcesForFrames wcs posStore frames o with ⟨e, cur⟩ | ss <;>
        rw [hss] at h
      · exact absurd h (by simp)
      · rcases hrec : buildAllSources wcs posStore frames rest (base + frames.length)
          with err | ⟨os₁, srcs₁⟩ <;> rw [hrec] at h
        · exact absurd h (by simp)
        · simp only [Except.ok.injEq, Prod.mk.injEq] at h
          obtain ⟨rfl, rfl⟩ := h
          obtain ⟨ihL, ihS, ihF⟩ := ih (base + frames.length) os₁ srcs₁ hrec
          obtain ⟨hssL, hssF⟩ := buildSourcesForFrames_ok wcs posStore frames o ss hss
          refine ⟨by simp [ihL], ?_, ?_⟩
          · simp only [List.length_append, hssL, ihS, List.length_cons]
            ring
          · intro i o₀ hi
            match i with
            | 0 =>
              simp only [List.getElem?_cons_zero, Option.some.injEq] at hi
              subst hi
              refine ⟨_, List.getElem?_cons_zero, rfl, rfl, rfl, rfl, rfl,
                by simp, by simp, ?_⟩
              intro j gf hj
              obtain ⟨s, hsj, hmk⟩ := hssF j gf hj
              have hjlt : j < ss.length := by
                rw [hssL]
                by_contra hge
                rw [List.getElem?_eq_none (by omega)] at hj
                · exact Option.noConfusion hj
              refine ⟨s, ?_, hmk⟩
              simp only [Nat.zero_mul, Nat.zero_add]
              rw [List.getElem?_append_left hjlt]
              exact hsj
            | i + 1 =>
              simp only [List.getElem?_cons_succ] at hi ⊢
              obtain ⟨o', ho', h1, h2, h3, h4, h5, h6, h7, h8⟩ := ihF i o₀ hi
              refine ⟨o', ho', h1, h2, h3, h4, h5, by rw [h6]; ring, by rw [h7]; ring, ?_⟩
              intro j gf hj
              obtain ⟨s, hsj, hmk⟩ := h8 j gf hj
              refine ⟨s, ?_, hmk⟩
              have harith : (i + 1) * frames.length + j =
                  ss.length + (i * frames.length + j) := by
                rw [hssL]
                ring
              rw [harith, List.getElem?_append_right (by omega)]
              rw [Nat.add_sub_cancel_left]
              exact hsj

/-- When every object either lacks a basis or can build all its sources, and
some object does lack a basis while some frame lacks a PSF, the source loop
fails with `missingBasisOrPsf` (raised by `validate` at the first basisless
object). -/
theorem buildAllSources_fails (wcs : Option Nat) (posStore : List GridComponent)
    (frames : List GridFrame) :
    ∀ (os : List GridObject) (base : Nat),
    (∀ o ∈ os, o.basis ≠ none → ∀ gf ∈ frames, ∃ s : Source,
      mkSource wcs gf o.id o.basis (resolveComponent posStore o.position) = .ok s) →
    (∃ o ∈ os, o.basis = none) →
    frames.any (fun f => f.psf.isNone) = true →
    ∃ st : Nat × Nat,
      buildAllSources wcs posStore frames os base = .error (MFError.missingBasisOrPsf, st) := by
  intro os
  induction os with
  | nil =>
    intro base _ hex _
    obtain ⟨o, ho, _⟩ := hex
    exact absurd ho (by simp)
  | cons o rest ih =>
    intro base hall hex hany
    rw [buildAllSources]
    by_cases hb : o.basis = none
    · rw [if_pos ⟨hb, hany⟩]
      exact ⟨(base, base), rfl⟩
    · rw [if_neg (by intro hc; exact hb hc.1)]
      obtain ⟨ss, hss⟩ := buildSourcesForFrames_ok_of wcs posStore frames o
        (hall o (by simp) hb)
      rw [hss]
      have hex₁ : ∃ o₁ ∈ rest, o₁.basis = none := by
        obtain ⟨o₁, ho₁, hb₁⟩ := hex
        rw [List.mem_cons] at ho₁
        rcases ho₁ with rfl | ho₁
        · exact absurd hb₁ hb
        · exact ⟨o₁, ho₁, hb₁⟩
      obtain ⟨st, hst⟩ := ih (base + frames.length)
        (fun o₁ ho₁ => hall o₁ (by simp [ho₁])) hex₁ hany
      rw [hst]
      exact ⟨st, rfl⟩

/-! ## Lemmas: the reverse dedup transfer -/

theorem transferToDef_cons_found (E : ParameterType) (buf : Option (List Int))
    (gix : Nat) (gc : GridComponent) (rest : List (Option (Nat × GridComponent)))
    (assoc : List (Nat × DefComponent)) (c : DefComponent)
    (hlk : lookupDef gix assoc = some c) :
    transferComponentsToDef E buf (some (gix, gc) :: rest) assoc =
      ((transferComponentsToDef E buf rest assoc).1,
       some c :: (transferComponentsToDef E buf rest assoc).2) := by
  conv_lhs => rw [transferComponentsToDef]
  rw [hlk]

theorem transferToDef_cons_new (E : ParameterType) (buf : Option (List Int))
    (gix : Nat) (gc : GridComponent) (rest : List (Option (Nat × GridComponent)))
    (assoc : List (Nat × DefComponent))
    (hlk : lookupDef gix assoc = none) :
    transferComponentsToDef E buf (some (gix, gc) :: rest) assoc =
      ((transferComponentsToDef E buf rest ((gix, mkRevComp E buf gix gc) :: assoc)).1,
       some (mkRevComp E buf gix gc) ::
         (transferComponentsToDef E buf rest ((gix, mkRevComp E buf gix gc) :: assoc)).2) := by
  conv_lhs => rw [transferComponentsToDef]
  rw [hlk]

/-- Master lemma for the reverse transfer: provided every reference resolves
against the store and the dedup map only holds components created by the
creation formula, each slot of the output is exactly the (deduplicated)
reconstruction of its grid component. -/
theorem transferToDef_spec (E : ParameterType) (buf : Option (List Int))
    (store : List GridComponent) :
    ∀ (refs : List (Option (Nat × GridComponent)))
      (assoc assoc' : List (Nat × DefComponent)) (outs : List (Option DefComponent)),
    transferComponentsToDef E buf refs assoc = (assoc', outs) →
    (∀ (i k : Nat) (gc : GridComponent), refs[i]? = some (some (k, gc)) →
      store[k]? = some gc) →
    (∀ (k : Nat) (c : DefComponent), lookupDef k assoc = some c →
      ∀ gc : GridComponent, store[k]? = some gc → c = mkRevComp E buf k gc) →
    outs.length = refs.length ∧
    (∀ i : Nat, refs[i]? = some none → outs[i]? = some none) ∧
    (∀ (i k : Nat) (gc : GridComponent), refs[i]? = some (some (k, gc)) →
      outs[i]? = some (some (mkRevComp E buf k gc))) := by
  intro refs
  induction refs with
  | nil =>
    intro assoc assoc' outs h _ _
    simp only [transferComponentsToDef, Prod.mk.injEq] at h
    obtain ⟨rfl, rfl⟩ := h
    exact ⟨rfl, by intro i h; simp at h, by intro i k gc h; simp at h⟩
  | cons r rest ih =>
    intro assoc assoc' outs h hres hmap
    match r with
    | none =>
      rw [transferComponentsToDef] at h
      rcases hr : transferComponentsToDef E buf rest assoc with ⟨a₁, o₁⟩
      rw [hr] at h
      simp only [Prod.mk.injEq] at h
      obtain ⟨rfl, rfl⟩ := h
      obtain ⟨hL, hN, hS⟩ := ih assoc a₁ o₁ hr
        (fun i k gc hi => hres (i + 1) k gc (by simpa using hi)) hmap
      refine ⟨by simp [hL], ?_, ?_⟩
      · intro i hi
        match i with
        | 0 => simp
        | i + 1 =>
          simp only [List.getElem?_cons_succ] at hi ⊢
          exact hN i hi
      · intro i k gc hi
        match i with
        | 0 => simp at hi
        | i + 1 =>
          simp only [List.getElem?_cons_succ] at hi ⊢
          exact hS i k gc hi
    | some (gix, gc) =>
      have hgc : store[gix]? = some gc := hres 0 gix gc (by simp)
      rcases hlk : lookupDef gix assoc with _ | c
      · -- first sight: the component is created by the creation formula
        rw [transferToDef_cons_new E buf gix gc rest assoc hlk] at h
        rcases hr : transferComponentsToDef E buf rest ((gix, mkRevComp E buf gix gc) :: assoc)
          with ⟨a₁, o₁⟩
        rw [hr] at h
        simp only [Prod.mk.injEq] at h
        obtain ⟨rfl, rfl⟩ := h
        have hmap₂ : ∀ (k : Nat) (c : DefComponent),
            lookupDef k ((gix, mkRevComp E buf gix gc) :: assoc) = some c →
            ∀ gc₀ : GridComponent, store[k]? = some gc₀ → c = mkRevComp E buf k gc₀ := by
          intro k c hl gc₀ hst
          by_cases hk : gix = k
          · subst hk
            simp only [lookupDef, if_pos rfl] at hl
            obtain rfl := Option.some.inj hl
            rw [hgc] at hst
            obtain rfl := Option.some.inj hst
            rfl
          · simp only [lookupDef, if_neg hk] at hl
            exact hmap k c hl gc₀ hst
        obtain ⟨hL, hN, hS⟩ := ih _ a₁ o₁ hr
          (fun i k gc₀ hi => hres (i + 1) k gc₀ (by simpa using hi)) hmap₂
        refine ⟨by simp [hL], ?_, ?_⟩
        · intro i hi
          match i with
          | 0 => simp at hi
          | i + 1 =>
            simp only [List.getElem?_cons_succ] at hi ⊢
            exact hN i hi
        · intro i k gc₀ hi
          match i with
          | 0 =>
            simp only [List.getElem?_cons_zero, Option.some.injEq, Prod.mk.injEq] at hi
            obtain ⟨rfl, rfl⟩ := hi
            simp
          | i + 1 =>
            simp only [List.getElem?_cons_succ] at hi ⊢
            exact hS i k gc₀ hi
      · -- repeat sight: the stored component is returned
        rw [transferToDef_cons_found E buf gix gc rest assoc c hlk] at h
        rcases hr : transferComponentsToDef E buf rest assoc with ⟨a₁, o₁⟩
        rw [hr] at h
        simp only [Prod.mk.injEq] at h
        obtain ⟨rfl, rfl⟩ := h
        have hc : c = mkRevComp E buf gix gc := hmap gix c hlk gc hgc
        obtain ⟨hL, hN, hS⟩ := ih assoc a₁ o₁ hr
          (fun i k gc₀ hi => hres (i + 1) k gc₀ (by simpa using hi)) hmap
        refine ⟨by simp [hL], ?_, ?_⟩
        · intro i hi
          match i with
          | 0 => simp at hi
          | i + 1 =>
            simp only [List.getElem?_cons_succ] at hi ⊢
            exact hN i hi
        · intro i k gc₀ hi
          match i with
          | 0 =>
            simp only [List.getElem?_cons_zero, Option.some.injEq, Prod.mk.injEq] at hi
            obtain ⟨rfl, rfl⟩ := hi
            simp [hc]
          | i + 1 =>
            simp only [List.getElem?_cons_succ] at hi ⊢
            exact hS i k gc₀ hi

/-! ## Lemmas: find / lower bound -/

theorem sorted_getElem_lt {T : Type} (getId : T → Int) (arr : List T)
    (hs : List.Pairwise (fun a b => getId a < getId b) arr)
    (k₁ k₂ : Nat) (e₁ e₂ : T) (hk : k₁ < k₂)
    (h₁ : arr[k₁]? = some e₁) (h₂ : arr[k₂]? = some e₂) :
    getId e₁ < getId e₂ := by
  have hl₂ : k₂ < arr.length := by
    by_contra hge
    rw [List.getElem?_eq_none (by omega)] at h₂
    exact Option.noConfusion h₂
  have hl₁ : k₁ < arr.length := by omega
  rw [List.getElem?_eq_getElem hl₁] at h₁
  rw [List.getElem?_eq_getElem hl₂] at h₂
  obtain rfl := Option.some.inj h₁
  obtain rfl := Option.some.inj h₂
  have := List.pairwise_iff_get.mp hs ⟨k₁, hl₁⟩ ⟨k₂, hl₂⟩ (Fin.mk_lt_mk.mpr hk)
  simpa [List.get_eq_getElem] using this

/-- Invariant of the hand-written lower-bound loop: starting from a window
`[iter1, iter1+count)` whose left part is all `< id` and whose right part is
all `≥ id`, the loop lands on the boundary. -/
theorem lowerBoundLoop_spec {T : Type} (getId : T → Int) (arr : List T) (id : Int)
    (hs : List.Pairwise (fun a b => getId a < getId b) arr) :
    ∀ (count iter1 : Nat),
    iter1 + count ≤ arr.length →
    (∀ (k : Nat) (e : T), k < iter1 → arr[k]? = some e → getId e < id) →
    (∀ (k : Nat) (e : T), iter1 + count ≤ k → arr[k]? = some e → id ≤ getId e) →
    iter1 ≤ lowerBoundLoop getId arr id iter1 count ∧
    lowerBoundLoop getId arr id iter1 count ≤ iter1 + count ∧
    (∀ (k : Nat) (e : T), k < lowerBoundLoop getId arr id iter1 count →
      arr[k]? = some e → getId e < id) ∧
    (∀ (k : Nat) (e : T), lowerBoundLoop getId arr id iter1 count ≤ k →
      arr[k]? = some e → id ≤ getId e) := by
  intro count
  induction count using Nat.strong_induction_on with
  | _ count ih =>
    intro iter1 hlen hlow hhigh
    rw [lowerBoundLoop]
    by_cases hc : count = 0
    · rw [dif_pos hc]
      subst hc
      exact ⟨Nat.le_refl _, by omega, hlow, fun k e hk he => hhigh k e (by omega) he⟩
    · rw [dif_neg hc]
      have hplt : iter1 + count / 2 < arr.length := by omega
      split
      case _ hpe =>
        rw [List.getElem?_eq_getElem hplt] at hpe
        exact absurd hpe (by simp)
      case _ e hpe =>
        by_cases hlt : getId e < id
        · rw [if_pos hlt]
          have hlow' : ∀ (k : Nat) (e₀ : T), k < iter1 + count / 2 + 1 →
              arr[k]? = some e₀ → getId e₀ < id := by
            intro k e₀ hk he₀
            by_cases hki : k < iter1
            · exact hlow k e₀ hki he₀
            · by_cases hkp : k = iter1 + count / 2
              · subst hkp
                rw [hpe] at he₀
                obtain rfl := Option.some.inj he₀
                exact hlt
              · exact lt_trans (sorted_getElem_lt getId arr hs k (iter1 + count / 2)
                  e₀ e (by omega) he₀ hpe) hlt
          have := ih (count - count / 2 - 1) (by omega) (iter1 + count / 2 + 1)
            (by omega) hlow'
            (fun k e₀ hk he₀ => hhigh k e₀ (by omega) he₀)
          refine ⟨by omega, by omega, this.2.2.1, this.2.2.2⟩
        · rw [if_neg hlt]
          have hhigh' : ∀ (k : Nat) (e₀ : T), iter1 + count / 2 ≤ k →
              arr[k]? = some e₀ → id ≤ getId e₀ := by
            intro k e₀ hk he₀
            by_cases hkp : k = iter1 + count / 2
            · subst hkp
              rw [hpe] at he₀
              obtain rfl := Option.some.inj he₀
              omega
            · have hgt : getId e < getId e₀ :=
                sorted_getElem_lt getId arr hs (iter1 + count / 2) k e e₀
                  (by omega) hpe he₀
              omega
          have := ih (count / 2) (by omega) iter1 (by omega) hlow hhigh'
          refine ⟨this.1, by omega, this.2.2.1, this.2.2.2⟩

/-- Full-array lower bound: every index below the result holds an id `< id`,
every index at or above it an id `≥ id`, and the result is at most the
length. -/
theorem lowerBound_full {T : Type} (getId : T → Int) (arr : List T) (id : Int)
    (hs : List.Pairwise (fun a b => getId a < getId b) arr) :
    lowerBoundLoop getId arr id 0 arr.length ≤ arr.length ∧
    (∀ (k : Nat) (e : T), k < lowerBoundLoop getId arr id 0 arr.length →
      arr[k]? = some e → getId e < id) ∧
    (∀ (k : Nat) (e : T), lowerBoundLoop getId arr id 0 arr.length ≤ k →
      arr[k]? = some e → id ≤ getId e) := by
  have := lowerBoundLoop_spec getId arr id hs arr.length 0 (by omega)
    (by intro k e hk he; omega)
    (by
      intro k e hk he
      rw [List.getElem?_eq_none (by omega)] at he
      exact absurd he (by simp))
  exact ⟨by omega, this.2.2.1, this.2.2.2⟩

/-- If the queried id is present, `find` returns exactly the holding entry. -/
theorem find_found {T : Type} (getId : T → Int) (arr : List T) (id : Int)
    (hs : List.Pairwise (fun a b => getId a < getId b) arr)
    (k : Nat) (e : T) (hk : arr[k]? = some e) (he : getId e = id) :
    find getId arr id = .found e := by
  obtain ⟨hle, hlow, hhigh⟩ := lowerBound_full getId arr id hs
  have hklen : k < arr.length := by
    by_contra hge
    rw [List.getElem?_eq_none (by omega)] at hk
    exact Option.noConfusion hk
  have hkr : ¬k < lowerBoundLoop getId arr id 0 arr.length := by
    intro hlt
    have := hlow k e hlt hk
    omega
  have hkeq : k = lowerBoundLoop getId arr id 0 arr.length := by
    by_contra hne
    have hrlt : lowerBoundLoop getId arr id 0 arr.length < k := by omega
    have hrlen : lowerBoundLoop getId arr id 0 arr.length < arr.length := by omega
    have hre : arr[lowerBoundLoop getId arr id 0 arr.length]? =
        some arr[lowerBoundLoop getId arr id 0 arr.length] :=
      List.getElem?_eq_getElem hrlen
    have h₁ := hhigh _ _ (Nat.le_refl _) hre
    have h₂ := sorted_getElem_lt getId arr hs _ k _ e hrlt hre hk
    omega
  unfold find
  rw [← hkeq, hk]
  simp [he]

/-- If the queried id is absent but some entry's id is at least it, `find`
throws the not-found error. -/
theorem find_notFound {T : Type} (getId : T → Int) (arr : List T) (id : Int)
    (hs : List.Pairwise (fun a b => getId a < getId b) arr)
    (habsent : ∀ e ∈ arr, getId e ≠ id)
    (hsome : ∃ e ∈ arr, id ≤ getId e) :
    find getId arr id = .notFound := by
  obtain ⟨hle, hlow, hhigh⟩ := lowerBound_full getId arr id hs
  obtain ⟨w, hw, hwge⟩ := hsome
  obtain ⟨kw, hkw⟩ := List.mem_iff_getElem?.mp hw
  have hrlen : lowerBoundLoop getId arr id 0 arr.length < arr.length := by
    by_contra hge
    have hkwlen : kw < arr.length := by
      by_contra hge₂
      rw [List.getElem?_eq_none (by omega)] at hkw
      exact Option.noConfusion hkw
    have := hlow kw w (by omega) hkw
    omega
  have hre : arr[lowerBoundLoop getId arr id 0 arr.length]? =
      some arr[lowerBoundLoop getId arr id 0 arr.length] :=
    List.getElem?_eq_getElem hrlen
  have hge := hhigh _ _ (Nat.le_refl _) hre
  have hne : getId arr[lowerBoundLoop getId arr id 0 arr.length] ≠ id :=
    habsent _ (List.getElem_mem hrlen)
  unfold find
  rw [hre]
  simp [hne]

/-- If every entry's id is below the queried id (in particular on the empty
array), the final comparison of `find` reads one past the array. -/
theorem find_oob {T : Type} (getId : T → Int) (arr : List T) (id : Int)
    (hs : List.Pairwise (fun a b => getId a < getId b) arr)
    (hall : ∀ e ∈ arr, getId e < id) :
    find getId arr id = .oobRead arr.length := by
  obtain ⟨hle, hlow, hhigh⟩ := lowerBound_full getId arr id hs
  have hreq : lowerBoundLoop getId arr id 0 arr.length = arr.length := by
    by_contra hne
    have hrlen : lowerBoundLoop getId arr id 0 arr.length < arr.length := by omega
    have hre : arr[lowerBoundLoop getId arr id 0 arr.length]? =
        some arr[lowerBoundLoop getId arr id 0 arr.length] :=
      List.getElem?_eq_getElem hrlen
    have h₁ := hhigh _ _ (Nat.le_refl _) hre
    have h₂ := hall _ (List.getElem_mem hrlen)
    omega
  unfold find
  rw [hreq, List.getElem?_eq_none (Nat.le_refl _)]

/-! ## Glue: the transfer stages of makeGrid -/

theorem FwdInv_nil : FwdInv [] [] := by
  constructor
  · intro c ix h
    simp [lookupKey] at h
  · intro c₁ c₂ ix h₁ h₂
    simp [lookupKey] at h₁

/-- The running parameter count at which each kind's transfer starts. -/
def startOf (d : Definition) : ParameterType → Nat
  | .POSITION => 0
  | .RADIUS => (posTransfer d).2.2.1
  | .ELLIPTICITY => (radTransfer d).2.2.1

theorem transferOf_spec (d : Definition) (E : ParameterType) :
    FwdInv (transferOf d E).1 (transferOf d E).2.1 ∧
    (transferOf d E).2.2.2.length = d.objects.length ∧
    (∀ i : Nat, (defComps d E)[i]? = some none →
      (transferOf d E).2.2.2[i]? = some none) ∧
    (∀ (i : Nat) (c : DefComponent), (defComps d E)[i]? = some (some c) →
      ∃ ix : Nat, (transferOf d E).2.2.2[i]? = some (some ix) ∧
        lookupKey c (transferOf d E).2.1 = some ix) ∧
    checkOffsets E (transferOf d E).1 (startOf d E) = some ((transferOf d E).2.2.1) := by
  have hlen : ∀ E₀ : ParameterType, (defComps d E₀).length = d.objects.length := by
    intro E₀
    simp [defComps]
  cases E
  case POSITION =>
    obtain ⟨hI, hM, hP, hL, hN, hS, hO⟩ := transferToGrid_spec .POSITION
      (defComps d .POSITION) [] (posTransfer d).1 [] (posTransfer d).2.1 0
      (posTransfer d).2.2.1 (posTransfer d).2.2.2 rfl FwdInv_nil
    exact ⟨hI, hL.trans (hlen _), hN, hS, hO 0 rfl⟩
  case RADIUS =>
    obtain ⟨hI, hM, hP, hL, hN, hS, hO⟩ := transferToGrid_spec .RADIUS
      (defComps d .RADIUS) [] (radTransfer d).1 [] (radTransfer d).2.1
      (posTransfer d).2.2.1 (radTransfer d).2.2.1 (radTransfer d).2.2.2 rfl FwdInv_nil
    exact ⟨hI, hL.trans (hlen _), hN, hS, hO (posTransfer d).2.2.1 rfl⟩
  case ELLIPTICITY =>
    obtain ⟨hI, hM, hP, hL, hN, hS, hO⟩ := transferToGrid_spec .ELLIPTICITY
      (defComps d .ELLIPTICITY) [] (ellTransfer d).1 [] (ellTransfer d).2.1
      (radTransfer d).2.2.1 (ellTransfer d).2.2.1 (ellTransfer d).2.2.2 rfl FwdInv_nil
    exact ⟨hI, hL.trans (hlen _), hN, hS, hO (radTransfer d).2.2.1 rfl⟩

/-- For a grid produced by `makeGrid`, the per-kind store is the corresponding
transfer's store. -/
theorem grid_store_eq (d : Definition) (g : Grid) (h : makeGrid d = .ok g)
    (E : ParameterType) : g.store E = (transferOf d E).1 := by
  obtain ⟨objs, srcs, hba, rfl⟩ := makeGrid_ok_elim d g h
  cases E <;> rfl

/-- For a grid produced by `makeGrid`: the objects are in one-to-one
correspondence with the definition objects, identifiers and bases copied and
each kind's component reference being the slot assigned by that kind's
transfer. -/
theorem grid_objects_fields (d : Definition) (g : Grid) (h : makeGrid d = .ok g) :
    g.objects.length = d.objects.length ∧
    ∀ (i : Nat) (o : DefObject), d.objects[i]? = some o →
      ∃ go : GridObject, g.objects[i]? = some go ∧ go.id = o.id ∧ go.basis = o.basis ∧
        ∀ E : ParameterType, some (go.component E) = (transferOf d E).2.2.2[i]? := by
  obtain ⟨objs, srcs, hba, rfl⟩ := makeGrid_ok_elim d g h
  obtain ⟨hbaL, hbaS, hbaF⟩ := buildAllSources_ok _ _ _ _ _ _ _ hba
  obtain ⟨hboL, hboF⟩ := buildObjects_spec d.objects
    (posTransfer d).2.2.2 (radTransfer d).2.2.2 (ellTransfer d).2.2.2
    (transferOf_spec d .POSITION).2.1 (transferOf_spec d .RADIUS).2.1
    (transferOf_spec d .ELLIPTICITY).2.1
  constructor
  · simpa [gridObjectsOf, hboL] using hbaL
  · intro i o hi
    obtain ⟨go, hgo, hid, hbasis, hpos, hrad, hell⟩ := hboF i o hi
    obtain ⟨o', ho', h1, h2, h3, h4, h5, _, _, _⟩ := hbaF i go (by
      simpa [gridObjectsOf] using hgo)
    refine ⟨o', ho', h1.trans hid, h2.trans hbasis, ?_⟩
    intro E
    cases E
    case POSITION => rw [show o'.component .POSITION = o'.position from rfl, h3]; exact hpos
    case RADIUS => rw [show o'.component .RADIUS = o'.radius from rfl, h4]; exact hrad
    case ELLIPTICITY =>
      rw [show o'.component .ELLIPTICITY = o'.ellipticity from rfl, h5]
      exact hell

/-- Inversion of a successful `makeDefinition`. -/
theorem makeDefinition_ok_elim (g : Grid) (buf : Option (List Int)) (d' : Definition)
    (h : makeDefinition g buf = .ok d') :
    ∃ w : Nat, g.wcs = some w ∧
      d' = ⟨some w,
            g.frames.map fun f => DefFrame.mk f.id f.filterId f.pixelCount f.psf f.wcs,
            attachComponents (g.objects.map fun o => DefObject.mk o.id o.basis none none none)
              (transferComponentsToDef .POSITION buf (gridRefsOf g .POSITION) []).2
              (transferComponentsToDef .RADIUS buf (gridRefsOf g .RADIUS) []).2
              (transferComponentsToDef .ELLIPTICITY buf (gridRefsOf g .ELLIPTICITY) []).2⟩ := by
  unfold makeDefinition at h
  rcases hw : g.wcs with _ | w <;> rw [hw] at h
  · exact absurd h (by simp)
  · simp only [Except.ok.injEq] at h
    exact ⟨w, rfl, h.symm⟩

/-! ## Glue: sharing correspondences -/

theorem defShares_eq_true_iff (d : Definition) (E : ParameterType) (i j : Nat) :
    defShares d E i j = true ↔
      ∃ c : DefComponent, defComponentAt d E i = some c ∧ defComponentAt d E j = some c := by
  rcases h₁ : defComponentAt d E i with _ | c₁ <;>
    rcases h₂ : defComponentAt d E j with _ | c₂ <;>
    simp [defShares, h₁, h₂]
  exact eq_comm

theorem gridShares_eq_true_iff (g : Grid) (E : ParameterType) (i j : Nat) :
    gridShares g E i j = true ↔
      ∃ ix : Nat, gridRefAt g E i = some ix ∧ gridRefAt g E j = some ix := by
  rcases h₁ : gridRefAt g E i with _ | ix₁ <;>
    rcases h₂ : gridRefAt g E j with _ | ix₂ <;>
    simp [gridShares, h₁, h₂]
  exact eq_comm

theorem defComps_getElem (d : Definition) (E : ParameterType) (i : Nat) :
    (defComps d E)[i]? = (d.objects[i]?).map fun o => o.component E := by
  simp [defComps]

/-- Forward correspondence, definition side to grid side: a held component is
mapped to the reference recorded in the final dedup map. -/
theorem comp_corr_fwd (d : Definition) (g : Grid) (h : makeGrid d = .ok g)
    (E : ParameterType) (i : Nat) (c : DefComponent)
    (hc : defComponentAt d E i = some c) :
    ∃ ix : Nat, gridRefAt g E i = some ix ∧
      lookupKey c (transferOf d E).2.1 = some ix := by
  obtain ⟨hlen, hfields⟩ := grid_objects_fields d g h
  obtain ⟨o, ho, hcomp⟩ : ∃ o : DefObject, d.objects[i]? = some o ∧ o.component E = some c := by
    unfold defComponentAt at hc
    rcases ho : d.objects[i]? with _ | o <;> rw [ho] at hc
    · exact absurd hc (by simp)
    · exact ⟨o, rfl, hc⟩
  obtain ⟨go, hgo, _, _, hgoc⟩ := hfields i o ho
  obtain ⟨ix, hout, hlk⟩ := (transferOf_spec d E).2.2.2.1 i c
    (by rw [defComps_getElem, ho]; simp [hcomp])
  refine ⟨ix, ?_, hlk⟩
  unfold gridRefAt
  rw [hgo]
  have := (hgoc E).trans hout
  simpa using this

/-- Forward correspondence, grid side to definition side: every reference held
by a grid object comes from a held definition component through the map. -/
theorem comp_corr_bwd (d : Definition) (g : Grid) (h : makeGrid d = .ok g)
    (E : ParameterType) (i ix : Nat)
    (hr : gridRefAt g E i = some ix) :
    ∃ c : DefComponent, defComponentAt d E i = some c ∧
      lookupKey c (transferOf d E).2.1 = some ix := by
  obtain ⟨hlen, hfields⟩ := grid_objects_fields d g h
  obtain ⟨go, hgo, hgoc⟩ : ∃ go : GridObject, g.objects[i]? = some go ∧
      go.component E = some ix := by
    unfold gridRefAt at hr
    rcases hgo : g.objects[i]? with _ | go <;> rw [hgo] at hr
    · exact absurd hr (by simp)
    · exact ⟨go, rfl, hr⟩
  have hilt : i < d.objects.length := by
    rw [← hlen]
    by_contra hge
    rw [List.getElem?_eq_none (by omega)] at hgo
    exact Option.noConfusion hgo
  obtain ⟨o, ho⟩ : ∃ o : DefObject, d.objects[i]? = some o := by
    rw [List.getElem?_eq_getElem hilt]
    exact ⟨_, rfl⟩
  obtain ⟨go', hgo', _, _, hgoc'⟩ := hfields i o ho
  obtain rfl : go' = go := by
    rw [hgo] at hgo'
    exact (Option.some.inj hgo').symm
  rcases hoc : o.component E with _ | c
  · have hnone := (transferOf_spec d E).2.2.1 i (by rw [defComps_getElem, ho]; simp [hoc])
    have := (hgoc' E).trans hnone
    rw [hgoc] at this
    exact absurd (Option.some.inj this) (by simp)
  · obtain ⟨ix', hout, hlk⟩ := (transferOf_spec d E).2.2.2.1 i c
      (by rw [defComps_getElem, ho]; simp [hoc])
    have := (hgoc' E).trans hout
    rw [hgoc] at this
    obtain rfl : ix' = ix := by
      have := Option.some.inj this
      exact (Option.some.inj this).symm
    exact ⟨c, by unfold defComponentAt; rw [ho]; exact hoc, hlk⟩

/-- Every reference of a `makeGrid` grid resolves in its store, with the
active flag and value copied from the definition component. -/
theorem comp_resolves (d : Definition) (g : Grid) (h : makeGrid d = .ok g)
    (E : ParameterType) (i ix : Nat)
    (hr : gridRefAt g E i = some ix) :
    ∃ (c : DefComponent) (gc : GridComponent),
      defComponentAt d E i = some c ∧ (g.store E)[ix]? = some gc ∧
      gc.active = c.active ∧ gc.value = c.value := by
  obtain ⟨c, hc, hlk⟩ := comp_corr_bwd d g h E i ix hr
  obtain ⟨gc, hgc, ha, hv⟩ := (transferOf_spec d E).1.val c ix hlk
  rw [← grid_store_eq d g h E] at hgc
  exact ⟨c, gc, hc, hgc, ha, hv⟩

theorem gridRefsOf_getElem (g : Grid) (E : ParameterType) (i : Nat) :
    (gridRefsOf g E)[i]? = (g.objects[i]?).map fun o =>
      (o.component E).bind fun ix => ((g.store E)[ix]?).map fun c => (ix, c) := by
  simp [gridRefsOf]

theorem gridRefsOf_res (g : Grid) (E : ParameterType) :
    ∀ (i k : Nat) (gc : GridComponent),
    (gridRefsOf g E)[i]? = some (some (k, gc)) → (g.store E)[k]? = some gc := by
  intro i k gc hi
  rw [gridRefsOf_getElem] at hi
  rcases ho : g.objects[i]? with _ | o <;> rw [ho] at hi
  · exact absurd hi (by simp)
  · simp only [Option.map_some', Option.some.injEq] at hi
    rcases hoc : o.component E with _ | ix <;> rw [hoc] at hi
    · exact absurd hi (by simp)
    · have hi' : Option.map (fun c => (ix, c)) (g.store E)[ix]? = some (k, gc) := hi
      rcases hst : (g.store E)[ix]? with _ | c <;> rw [hst] at hi'
      · exact absurd hi' (by simp)
      · simp only [Option.map_some', Option.some.injEq, Prod.mk.injEq] at hi'
        obtain ⟨rfl, rfl⟩ := hi'
        exact hst

/-- What `makeDefinition` stores in each output object's component slot: the
(deduplicated) reconstruction of the referenced grid component. -/
theorem makeDef_comp (g : Grid) (buf : Option (List Int)) (d' : Definition)
    (hmd : makeDefinition g buf = .ok d') (E : ParameterType) (i : Nat) :
    defComponentAt d' E i =
      (gridRefAt g E i).bind fun ix =>
        ((g.store E)[ix]?).map fun gc => mkRevComp E buf ix gc := by
  obtain ⟨w, hw, rfl⟩ := makeDefinition_ok_elim g buf d' hmd
  have hrefL : ∀ E₀ : ParameterType, (gridRefsOf g E₀).length = g.objects.length := by
    intro E₀
    simp [gridRefsOf]
  obtain ⟨hLP, hNP, hSP⟩ := transferToDef_spec .POSITION buf (g.store .POSITION)
    (gridRefsOf g .POSITION) []
    (transferComponentsToDef .POSITION buf (gridRefsOf g .POSITION) []).1
    (transferComponentsToDef .POSITION buf (gridRefsOf g .POSITION) []).2 rfl
    (gridRefsOf_res g .POSITION) (by intro k c hl; simp [lookupDef] at hl)
  obtain ⟨hLR, hNR, hSR⟩ := transferToDef_spec .RADIUS buf (g.store .RADIUS)
    (gridRefsOf g .RADIUS) []
    (transferComponentsToDef .RADIUS buf (gridRefsOf g .RADIUS) []).1
    (transferComponentsToDef .RADIUS buf (gridRefsOf g .RADIUS) []).2 rfl
    (gridRefsOf_res g .RADIUS) (by intro k c hl; simp [lookupDef] at hl)
  obtain ⟨hLE, hNE, hSE⟩ := transferToDef_spec .ELLIPTICITY buf (g.store .ELLIPTICITY)
    (gridRefsOf g .ELLIPTICITY) []
    (transferComponentsToDef .ELLIPTICITY buf (gridRefsOf g .ELLIPTICITY) []).1
    (transferComponentsToDef .ELLIPTICITY buf (gridRefsOf g .ELLIPTICITY) []).2 rfl
    (gridRefsOf_res g .ELLIPTICITY) (by intro k c hl; simp [lookupDef] at hl)
  have hbaseL : (g.objects.map fun o => DefObject.mk o.id o.basis none none none).length =
      g.objects.length := by simp
  obtain ⟨haL, haF⟩ := attachComponents_spec
    (g.objects.map fun o => DefObject.mk o.id o.basis none none none)
    (transferComponentsToDef .POSITION buf (gridRefsOf g .POSITION) []).2
    (transferComponentsToDef .RADIUS buf (gridRefsOf g .RADIUS) []).2
    (transferComponentsToDef .ELLIPTICITY buf (gridRefsOf g .ELLIPTICITY) []).2
    (by rw [hLP, hrefL, hbaseL]) (by rw [hLR, hrefL, hbaseL]) (by rw [hLE, hrefL, hbaseL])
  rcases ho : g.objects[i]? with _ | o
  · -- index out of range on both sides
    have hge : g.objects.length ≤ i := by
      by_contra hlt
      rw [List.getElem?_eq_getElem (by omega)] at ho
      exact Option.noConfusion ho
    have hd : (attachComponents
        (g.objects.map fun o => DefObject.mk o.id o.basis none none none)
        (transferComponentsToDef .POSITION buf (gridRefsOf g .POSITION) []).2
        (transferComponentsToDef .RADIUS buf (gridRefsOf g .RADIUS) []).2
        (transferComponentsToDef .ELLIPTICITY buf (gridRefsOf g .ELLIPTICITY) []).2)[i]? =
        none := by
      rw [List.getElem?_eq_none]
      rw [haL, hbaseL]
      omega
    unfold defComponentAt gridRefAt
    simp only [hd, ho]
    rfl
  · have hbase : (g.objects.map fun o => DefObject.mk o.id o.basis none none none)[i]? =
        some (DefObject.mk o.id o.basis none none none) := by
      rw [List.getElem?_map, ho]
      rfl
    obtain ⟨o', ho', _, _, hpos, hrad, hell⟩ := haF i _ hbase
    have hsel : some (o'.component E) =
        (transferComponentsToDef E buf (gridRefsOf g E) []).2[i]? := by
      cases E
      case POSITION => exact hpos
      case RADIUS => exact hrad
      case ELLIPTICITY => exact hell
    have houts : ∀ (out : Option DefComponent),
        (transferComponentsToDef E buf (gridRefsOf g E) []).2[i]? = some out →
        o'.component E = out := by
      intro out hout
      rw [hout] at hsel
      exact Option.some.inj hsel
    have hSgen : ∀ (k : Nat) (gc : GridComponent),
        (gridRefsOf g E)[i]? = some (some (k, gc)) →
        (transferComponentsToDef E buf (gridRefsOf g E) []).2[i]? =
          some (some (mkRevComp E buf k gc)) := by
      cases E
      case POSITION => exact fun k gc => hSP i k gc
      case RADIUS => exact fun k gc => hSR i k gc
      case ELLIPTICITY => exact fun k gc => hSE i k gc
    have hNgen : (gridRefsOf g E)[i]? = some none →
        (transferComponentsToDef E buf (gridRefsOf g E) []).2[i]? = some none := by
      cases E
      case POSITION => exact hNP i
      case RADIUS => exact hNR i
      case ELLIPTICITY => exact hNE i
    have hrefs : (gridRefsOf g E)[i]? =
        some ((o.component E).bind fun ix => ((g.store E)[ix]?).map fun c => (ix, c)) := by
      rw [gridRefsOf_getElem, ho]
      rfl
    unfold defComponentAt gridRefAt
    rw [ho']
    rw [ho]
    simp only [Option.some_bind]
    rcases hoc : o.component E with _ | ix
    · rw [hoc] at hrefs
      simp only [Option.none_bind] at hrefs
      rw [houts none (hNgen hrefs)]
      simp
    · rw [hoc] at hrefs
      have hrefs' : (gridRefsOf g E)[i]? =
          some (Option.map (fun c => (ix, c)) (g.store E)[ix]?) := hrefs
      simp only [Option.some_bind]
      rcases hst : (g.store E)[ix]? with _ | gc
      · rw [hst] at hrefs'
        simp only [Option.map_none'] at hrefs'
        rw [houts none (hNgen hrefs')]
        simp
      · rw [hst] at hrefs'
        simp only [Option.map_some'] at hrefs'
        rw [houts _ (hSgen ix gc hrefs')]
        simp

/-! ## Claim theorems -/

theorem mkRevComp_tag (E : ParameterType) (buf : Option (List Int)) (k : Nat)
    (gc : GridComponent) : (mkRevComp E buf k gc).tag = k := rfl

/-- Three consecutive half-open ranges starting at 0 tile the whole range. -/
theorem range'_triple (a b c : Nat) (hab : a ≤ b) (hbc : b ≤ c) :
    List.range' 0 a ++ List.range' a (b - a) ++ List.range' b (c - b) =
      List.range' 0 c := by
  have e₁ := List.range'_append 0 a (b - a) 1
  simp only [Nat.one_mul, Nat.zero_add] at e₁
  rw [e₁, show b - a + a = b by omega]
  have e₂ := List.range'_append 0 b (c - b) 1
  simp only [Nat.one_mul, Nat.zero_add] at e₂
  rw [e₂, show c - b + b = c by omega]

/-- C1: sharing topology is preserved bijectively through both
transformations: two definition objects hold the same parameter-component
instance of a kind exactly when their grid objects reference the same grid
component (one instance, hence one offset and one value), and exactly when the
objects of definitions reconstructed by `makeDefinition` share one component
instance; distinct instances map to distinct instances (the same equalities,
read in the other direction). -/
theorem claim_C1_sharing_roundtrip (d : Definition) (g : Grid)
    (h : makeGrid d = .ok g) (E : ParameterType) (i j : Nat) :
    defShares d E i j = gridShares g E i j ∧
    ∀ (buf : Option (List Int)) (d' : Definition),
      makeDefinition g buf = .ok d' → gridShares g E i j = defShares d' E i j := by
  constructor
  · apply Bool.coe_iff_coe.mp
    rw [defShares_eq_true_iff, gridShares_eq_true_iff]
    constructor
    · rintro ⟨c, hci, hcj⟩
      obtain ⟨ixi, hri, hlki⟩ := comp_corr_fwd d g h E i c hci
      obtain ⟨ixj, hrj, hlkj⟩ := comp_corr_fwd d g h E j c hcj
      obtain rfl : ixi = ixj := by
        rw [hlki] at hlkj
        exact Option.some.inj hlkj
      exact ⟨ixi, hri, hrj⟩
    · rintro ⟨ix, hri, hrj⟩
      obtain ⟨ci, hci, hlki⟩ := comp_corr_bwd d g h E i ix hri
      obtain ⟨cj, hcj, hlkj⟩ := comp_corr_bwd d g h E j ix hrj
      obtain rfl : ci = cj := (transferOf_spec d E).1.inj ci cj ix hlki hlkj
      exact ⟨ci, hci, hcj⟩
  · intro buf d' hmd
    apply Bool.coe_iff_coe.mp
    rw [gridShares_eq_true_iff, defShares_eq_true_iff]
    constructor
    · rintro ⟨ix, hri, hrj⟩
      obtain ⟨ci, gci, hci, hsti, _, _⟩ := comp_resolves d g h E i ix hri
      refine ⟨mkRevComp E buf ix gci, ?_, ?_⟩
      · rw [makeDef_comp g buf d' hmd E i, hri]
        simp [hsti]
      · rw [makeDef_comp g buf d' hmd E j, hrj]
        simp [hsti]
    · rintro ⟨c, hci, hcj⟩
      rw [makeDef_comp g buf d' hmd E i] at hci
      rw [makeDef_comp g buf d' hmd E j] at hcj
      rcases hri : gridRefAt g E i with _ | ixi
      · rw [hri] at hci
        exact absurd hci (by simp)
      · rcases hrj : gridRefAt g E j with _ | ixj
        · rw [hrj] at hcj
          exact absurd hcj (by simp)
        · rw [hri] at hci
          rw [hrj] at hcj
          simp only [Option.some_bind] at hci hcj
          rcases hsti : (g.store E)[ixi]? with _ | gci
          · rw [hsti] at hci
            exact absurd hci (by simp)
          · rcases hstj : (g.store E)[ixj]? with _ | gcj
            · rw [hstj] at hcj
              exact absurd hcj (by simp)
            · rw [hsti] at hci
              rw [hstj] at hcj
              simp only [Option.map_some', Option.some.injEq] at hci hcj
              obtain rfl : ixi = ixj := by
                have h₁ : c.tag = ixi := by rw [← hci]; rfl
                have h₂ : c.tag = ixj := by rw [← hcj]; rfl
                omega
              exact ⟨ixi, rfl, rfl⟩

/-- C2: for every successfully built grid, walking kinds in the fixed order
Position, Radius, Ellipticity and components in creation order, every active
component's offset is the running parameter count (the `checkOffsets` chains),
so the `[offset, offset + Kind.size)` ranges of the active components tile
`[0, parameterCount)` exactly; every inactive component carries offset `-1`. -/
theorem claim_C2_offset_partition (d : Definition) (g : Grid)
    (h : makeGrid d = .ok g) :
    coveredSlots (activeRanges g) = List.range g.parameterCount ∧
    (∀ E : ParameterType, ∀ c ∈ g.store E, c.active = false → c.offset = -1) ∧
    ∃ p₁ p₂ : Nat,
      checkOffsets .POSITION g.positions 0 = some p₁ ∧
      checkOffsets .RADIUS g.radii p₁ = some p₂ ∧
      checkOffsets .ELLIPTICITY g.ellipticities p₂ = some g.parameterCount := by
  have hko : ∀ E : ParameterType,
      checkOffsets E (g.store E) (startOf d E) = some ((transferOf d E).2.2.1) := by
    intro E
    rw [grid_store_eq d g h E]
    exact (transferOf_spec d E).2.2.2.2
  have hgpos : g.positions = g.store .POSITION := rfl
  have hgrad : g.radii = g.store .RADIUS := rfl
  have hgell : g.ellipticities = g.store .ELLIPTICITY := rfl
  have hpc : g.parameterCount = (ellTransfer d).2.2.1 := by
    obtain ⟨objs, srcs, hba, rfl⟩ := makeGrid_ok_elim d g h
    rfl
  obtain ⟨hcovP, hleP, hsenP⟩ := checkOffsets_cover .POSITION (g.store .POSITION)
    (startOf d .POSITION) _ (hko .POSITION)
  obtain ⟨hcovR, hleR, hsenR⟩ := checkOffsets_cover .RADIUS (g.store .RADIUS)
    (startOf d .RADIUS) _ (hko .RADIUS)
  obtain ⟨hcovE, hleE, hsenE⟩ := checkOffsets_cover .ELLIPTICITY (g.store .ELLIPTICITY)
    (startOf d .ELLIPTICITY) _ (hko .ELLIPTICITY)
  refine ⟨?_, ?_, ?_⟩
  · have hsplit : coveredSlots (activeRanges g) =
        ((g.positions.filter (·.active)).flatMap fun c =>
          List.range' c.offset.toNat ParameterType.POSITION.SIZE) ++
        ((g.radii.filter (·.active)).flatMap fun c =>
          List.range' c.offset.toNat ParameterType.RADIUS.SIZE) ++
        ((g.ellipticities.filter (·.active)).flatMap fun c =>
          List.range' c.offset.toNat ParameterType.ELLIPTICITY.SIZE) := by
      simp [coveredSlots, activeRanges, List.flatMap_append, List.flatMap_map]
    rw [hsplit, hgpos, hgrad, hgell, hcovP, hcovR, hcovE]
    simp only [startOf, transferOf] at hleR hleE ⊢
    rw [hpc, List.range_eq_range', Nat.sub_zero]
    exact range'_triple (posTransfer d).2.2.1 (radTransfer d).2.2.1
      (ellTransfer d).2.2.1 hleR hleE
  · intro E c hc hact
    cases E
    case POSITION => exact hsenP c hc hact
    case RADIUS => exact hsenR c hc hact
    case ELLIPTICITY => exact hsenE c hc hact
  · exact ⟨(posTransfer d).2.2.1, (radTransfer d).2.2.1,
      by rw [hgpos]; exact hko .POSITION,
      by rw [hgrad]; exact hko .RADIUS,
      by rw [hgell, hpc]; exact hko .ELLIPTICITY⟩

/-- C9: a successfully built grid has exactly one source per (object, frame)
pair: `M×N` sources in total, each object owning the contiguous range
`[i·N, (i+1)·N)` of source storage in object-array order, filled in
frame-array order. -/
theorem claim_C9_source_cardinality (d : Definition) (g : Grid)
    (h : makeGrid d = .ok g) :
    g.objects.length = d.objects.length ∧
    g.frames.length = d.frames.length ∧
    g.sources.length = g.objects.length * g.frames.length ∧
    ∀ (i : Nat) (o : GridObject), g.objects[i]? = some o →
      o.sourcesFirst = i * g.frames.length ∧
      o.sourcesLast = i * g.frames.length + g.frames.length ∧
      ∀ (j : Nat) (gf : GridFrame), g.frames[j]? = some gf →
        ∃ s : Source, g.sources[i * g.frames.length + j]? = some s ∧
          s.objectId = o.id ∧ s.frameIndex = j := by
  have hobjL := (grid_objects_fields d g h).1
  obtain ⟨objs, srcs, hba, hg⟩ := makeGrid_ok_elim d g h
  obtain ⟨hbaL, hbaS, hbaF⟩ := buildAllSources_ok _ _ _ _ _ _ _ hba
  obtain ⟨hfrL, hfrF⟩ := buildFrames_spec d.frames [] 0 0 0
  have hgobj : g.objects = objs := by rw [hg]
  have hgsrc : g.sources = srcs := by rw [hg]
  have hgfr : g.frames = gridFramesOf d := by rw [hg]
  have hfrL' : g.frames.length = d.frames.length := by
    rw [hgfr]
    exact hfrL
  refine ⟨hobjL, hfrL', ?_, ?_⟩
  · rw [hgsrc, hgobj, hgfr, hbaS, hbaL]
  · intro i o hi
    have higo : ∃ go : GridObject, (gridObjectsOf d)[i]? = some go := by
      rw [List.getElem?_eq_getElem]
      · exact ⟨_, rfl⟩
      · have : i < g.objects.length := by
          by_contra hge
          rw [List.getElem?_eq_none (by omega)] at hi
          exact Option.noConfusion hi
        rw [hgobj] at this
        rw [hbaL] at this
        exact this
    obtain ⟨go, hgo⟩ := higo
    obtain ⟨o', ho', hid, _, _, _, _, hfirst, hlast, hsrc⟩ := hbaF i go hgo
    obtain rfl : o' = o := by
      rw [hgobj] at hi
      rw [hi] at ho'
      exact (Option.some.inj ho').symm
    refine ⟨by rw [hgfr]; omega, by rw [hgfr]; omega, ?_⟩
    intro j gf hgf
    have hjlt : j < d.frames.length := by
      rw [← hfrL']
      by_contra hge
      rw [List.getElem?_eq_none (by omega)] at hgf
      exact Option.noConfusion hgf
    obtain ⟨f, hf⟩ : ∃ f : DefFrame, d.frames[j]? = some f := by
      rw [List.getElem?_eq_getElem hjlt]
      exact ⟨_, rfl⟩
    obtain ⟨gf', hgf', hfix, _⟩ := hfrF j f hf
    have hgfeq : gf' = gf := by
      rw [hgfr] at hgf
      rw [show (gridFramesOf d)[j]? = some gf' from hgf'] at hgf
      exact Option.some.inj hgf
    rw [hgfeq] at hfix
    obtain ⟨s, hsj, hmk⟩ := hsrc j gf (by rw [← hgfr]; exact hgf)
    obtain ⟨hsf, hso⟩ := mkSource_ok_fields _ _ _ _ _ _ hmk
    refine ⟨s, ?_, by rw [hso, hid], by rw [hsf, hfix]; omega⟩
    rw [hgsrc, hgfr]
    exact hsj

/-- C8: `grid::Source::Source` raises the coordinate-system inconsistency
error exactly when WCS presence differs between the definition and the frame;
with consistent presence it never raises this error (it may raise others). -/
theorem claim_C8_wcs_consistency (wcs : Option Nat) (f : GridFrame) (oid : Int)
    (b : Option Nat) (posc : Option GridComponent) :
    (mkSource wcs f oid b posc = .error MFError.inconsistentWcsFrameMissing ∨
     mkSource wcs f oid b posc = .error MFError.inconsistentWcsFrameHas) ↔
      wcs.isSome ≠ f.wcs.isSome := by
  obtain ⟨fid, ffil, fpsf, fwcs, fpo, fpc, ffi, ffr⟩ := f
  rcases wcs with _ | w <;> rcases fwcs with _ | fw <;>
    rcases fpsf with _ | p <;> rcases posc with _ | pc <;> rcases b with _ | bb <;>
    simp [mkSource, mkSourcePsfBasis]

theorem makeGrid_error_of (d : Definition) (e : MFError) (c cur : Nat)
    (hba : buildAllSources d.wcs (posTransfer d).1 (gridFramesOf d) (gridObjectsOf d) 0 =
      .error (e, c, cur)) :
    makeGrid d = .error (e, ⟨(gridFramesOf d).length, (gridObjectsOf d).length, c, cur⟩) := by
  rw [makeGrid, hba]

/-- The grid objects of a definition, index-wise (before the source loop). -/
theorem gridObjectsOf_spec (d : Definition) :
    (gridObjectsOf d).length = d.objects.length ∧
    ∀ (i : Nat) (o : DefObject), d.objects[i]? = some o →
      ∃ go : GridObject, (gridObjectsOf d)[i]? = some go ∧ go.id = o.id ∧
        go.basis = o.basis ∧ ∀ E : ParameterType,
          some (go.component E) = (transferOf d E).2.2.2[i]? := by
  obtain ⟨hboL, hboF⟩ := buildObjects_spec d.objects
    (posTransfer d).2.2.2 (radTransfer d).2.2.2 (ellTransfer d).2.2.2
    (transferOf_spec d .POSITION).2.1 (transferOf_spec d .RADIUS).2.1
    (transferOf_spec d .ELLIPTICITY).2.1
  refine ⟨hboL, ?_⟩
  intro i o hi
  obtain ⟨go, hgo, hid, hbasis, hpos, hrad, hell⟩ := hboF i o hi
  refine ⟨go, hgo, hid, hbasis, ?_⟩
  intro E
  cases E
  case POSITION => exact hpos
  case RADIUS => exact hrad
  case ELLIPTICITY => exact hell

/-- C7 (amended): when WCS presence is consistent and every object carries a
position component, a definition containing a basisless object and a PSF-less
frame fails grid construction with `missingBasisOrPsf` (and no grid value is
produced); and a source, when constructed, carries the object's basis
convolved with the localized PSF when the frame has a PSF, or the bare object
basis when it has none. -/
theorem claim_C7_missing_basis_psf :
    (∀ d : Definition,
      (∀ f ∈ d.frames, f.wcs.isSome = d.wcs.isSome) →
      (∀ o ∈ d.objects, o.position.isSome) →
      (∃ o ∈ d.objects, o.basis = none) →
      (∃ f ∈ d.frames, f.psf = none) →
      ∃ fi : FailInfo, makeGrid d = .error (MFError.missingBasisOrPsf, fi)) ∧
    (∀ (wcs : Option Nat) (f : GridFrame) (oid : Int) (bb : Nat)
       (posc : Option GridComponent) (s : Source),
      mkSource wcs f oid (some bb) posc = .ok s →
      (∀ p : Nat, f.psf = some p → s.basis = some (SourceBasis.convolved bb p)) ∧
      (f.psf = none → s.basis = some (SourceBasis.bare bb))) := by
  constructor
  · intro d hcons hpos hnb hnp
    obtain ⟨hgoL, hgoF⟩ := gridObjectsOf_spec d
    obtain ⟨hgfL, hgfF⟩ := buildFrames_spec d.frames [] 0 0 0
    -- each frame's WCS and PSF presence agrees with its definition frame
    have hframe : ∀ gf ∈ gridFramesOf d, ∃ f ∈ d.frames, gf.wcs = f.wcs ∧ gf.psf = f.psf := by
      intro gf hgf
      obtain ⟨j, hj⟩ := List.getElem?_of_mem hgf
      have hgfL' : (gridFramesOf d).length = d.frames.length := hgfL
      have hjlt0 : j < (gridFramesOf d).length := by
        by_contra hge
        rw [List.getElem?_eq_none (by omega)] at hj
        exact Option.noConfusion hj
      have hjlt : j < d.frames.length := by
        rw [← hgfL']
        exact hjlt0
      obtain ⟨f, hf⟩ : ∃ f : DefFrame, d.frames[j]? = some f := by
        rw [List.getElem?_eq_getElem hjlt]
        exact ⟨_, rfl⟩
      obtain ⟨gf', hgf', _, _, _, hpsf, hwcs, _⟩ := hgfF j f hf
      obtain rfl : gf' = gf := by
        rw [show (gridFramesOf d)[j]? = some gf' from hgf'] at hj
        exact Option.some.inj hj
      exact ⟨f, List.getElem?_mem hf, hwcs, hpsf⟩
    -- H1: every basis-carrying object can build all of its sources
    have hall : ∀ go ∈ gridObjectsOf d, go.basis ≠ none →
        ∀ gf ∈ gridFramesOf d, ∃ s : Source,
          mkSource d.wcs gf go.id go.basis
            (resolveComponent (posTransfer d).1 go.position) = .ok s := by
      intro go hgo hbne gf hgf
      obtain ⟨i, hi⟩ := List.getElem?_of_mem hgo
      have hilt0 : i < (gridObjectsOf d).length := by
        by_contra hge
        rw [List.getElem?_eq_none (by omega)] at hi
        exact Option.noConfusion hi
      have hilt : i < d.objects.length := by
        rw [← hgoL]
        exact hilt0
      obtain ⟨o, ho⟩ : ∃ o : DefObject, d.objects[i]? = some o := by
        rw [List.getElem?_eq_getElem hilt]
        exact ⟨_, rfl⟩
      obtain ⟨go', hgo', hid, hbasis, hcomp⟩ := hgoF i o ho
      have hgeq : go' = go := by
        rw [show (gridObjectsOf d)[i]? = some go' from hgo'] at hi
        exact Option.some.inj hi
      rw [hgeq] at hid hbasis hcomp
      obtain ⟨bb, hbb⟩ : ∃ bb : Nat, go.basis = some bb := by
        rcases hgb : go.basis with _ | bb
        · exact absurd hgb hbne
        · exact ⟨bb, rfl⟩
      obtain ⟨cpos, hcpos⟩ : ∃ cpos : DefComponent, o.position = some cpos := by
        have := hpos o (List.getElem?_mem ho)
        rcases hop : o.position with _ | cpos
        · rw [hop] at this
          exact absurd this (by simp)
        · exact ⟨cpos, rfl⟩
      obtain ⟨ix, hout, hlk⟩ := (transferOf_spec d .POSITION).2.2.2.1 i cpos
        (by rw [defComps_getElem, ho]; simp [DefObject.component, hcpos])
      have hgop : go.position = some ix := by
        have := (hcomp .POSITION).trans hout
        exact Option.some.inj this
      obtain ⟨gc, hgc, _, _⟩ := (transferOf_spec d .POSITION).1.val cpos ix hlk
      have hres : resolveComponent (posTransfer d).1 go.position = some gc := by
        rw [hgop]
        unfold resolveComponent
        simp only [Option.some_bind]
        exact hgc
      obtain ⟨f, hf, hwcs, _⟩ := hframe gf hgf
      have hconsf : gf.wcs.isSome = d.wcs.isSome := by
        rw [hwcs]
        exact hcons f hf
      rw [hbb, hres]
      exact mkSource_ok_of d.wcs gf go.id bb gc hconsf
    -- H2: some grid object lacks a basis
    have hex : ∃ go ∈ gridObjectsOf d, go.basis = none := by
      obtain ⟨o, ho, hob⟩ := hnb
      obtain ⟨i, hi⟩ := List.getElem?_of_mem ho
      obtain ⟨go, hgo, _, hbasis, _⟩ := hgoF i o hi
      exact ⟨go, List.getElem?_mem hgo, by rw [hbasis, hob]⟩
    -- H3: some grid frame lacks a PSF
    have hany : (gridFramesOf d).any (fun f => f.psf.isNone) = true := by
      obtain ⟨f, hf, hfp⟩ := hnp
      obtain ⟨j, hj⟩ := List.getElem?_of_mem hf
      obtain ⟨gf, hgf, _, _, _, hpsf, _, _⟩ := hgfF j f hj
      rw [List.any_eq_true]
      exact ⟨gf, List.getElem?_mem hgf, by rw [hpsf, hfp]; rfl⟩
    obtain ⟨⟨c, cur⟩, hst⟩ := buildAllSources_fails d.wcs (posTransfer d).1
      (gridFramesOf d) (gridObjectsOf d) 0 hall hex hany
    exact ⟨_, makeGrid_error_of d MFError.missingBasisOrPsf c cur hst⟩
  · intro wcs f oid bb posc s h
    exact mkSource_basis wcs f oid bb posc s h

/-! ## Concrete instances -/

instance exceptDecidableEq {ε α : Type} [DecidableEq ε] [DecidableEq α] :
    DecidableEq (Except ε α) := fun a b =>
  match a, b with
  | .error e₁, .error e₂ =>
    if h : e₁ = e₂ then isTrue (by rw [h])
    else isFalse (by intro hc; injection hc; exact h (by assumption))
  | .error _, .ok _ => isFalse (by intro hc; exact Except.noConfusion hc)
  | .ok _, .error _ => isFalse (by intro hc; exact Except.noConfusion hc)
  | .ok a₁, .ok a₂ =>
    if h : a₁ = a₂ then isTrue (by rw [h])
    else isFalse (by intro hc; injection hc; exact h (by assumption))

/-- A radius component instance shared by the two example objects. -/
def exShared : DefComponent := ⟨10, true, [7]⟩

def exPos0 : DefComponent := ⟨1, true, [1, 2]⟩

def exPos1 : DefComponent := ⟨2, false, [3, 4]⟩

/-- Two frames (distinct filters, the second without a PSF), two objects
sharing one radius component. -/
def exDef : Definition :=
  { wcs := some 0,
    frames := [⟨100, 5, 30, some 50, some 60⟩, ⟨101, 6, 20, none, some 61⟩],
    objects :=
      [⟨200, some 70, some exPos0, some exShared, none⟩,
       ⟨201, some 71, some exPos1, some exShared, none⟩] }

def junkGrid : Grid := ⟨none, [], [], [], [], [], [], 0, 0, 0⟩

def exGrid : Grid := ((makeGrid exDef).toOption).getD junkGrid

def exDefRT : Definition := ((makeDefinition exGrid none).toOption).getD ⟨none, [], []⟩

/-- A WCS-less definition that builds a grid successfully. -/
def exDefNoWcs : Definition :=
  { wcs := none, frames := [⟨100, 5, 30, some 50, none⟩],
    objects := [⟨200, some 70, some exPos0, none, none⟩] }

def exGridNoWcs : Grid := ((makeGrid exDefNoWcs).toOption).getD junkGrid

/-- Definition WCS set but the frame has none: the first source constructor
throws. -/
def exDefBadWcs : Definition :=
  { wcs := some 0, frames := [⟨100, 5, 30, some 50, none⟩],
    objects := [⟨200, some 70, some exPos0, none, none⟩] }

/-- Contains a basisless object and a PSF-less frame, but WCS presence is
inconsistent, so construction fails with the coordinate-system error first. -/
def exDefC7 : Definition :=
  { wcs := some 0, frames := [⟨100, 5, 30, none, none⟩],
    objects := [⟨200, some 70, some exPos0, none, none⟩,
                ⟨201, none, some exPos1, none, none⟩] }

/-- Consistent WCS presence, one basisless object, one PSF-less frame. -/
def exDefC7b : Definition :=
  { wcs := none, frames := [⟨100, 5, 30, none, none⟩],
    objects := [⟨200, none, some exPos0, none, none⟩] }

def exArr : List FindEntry := [⟨3, 0⟩, ⟨5, 1⟩, ⟨9, 2⟩]

/-! ## Remaining claim theorems -/

/-- C3 (code-bug evidence): on `exDefBadWcs` the first `grid::Source`
constructor throws after the placement-new expression has already advanced
`sources._last`; the recorded failure state has zero sources constructed but a
cursor of one, and `destroyGrid` runs the source destructor on slot 0 — an
element that was never constructed — before destroying the object and the
frame. -/
theorem claim_C3_destroy_overshoot :
    makeGrid exDefBadWcs =
      .error (MFError.inconsistentWcsFrameMissing, ⟨1, 1, 0, 1⟩) ∧
    destroyGrid ⟨1, 1, 0, 1⟩ =
      [(ElemKind.source, 0), (ElemKind.object, 0), (ElemKind.frame, 0)] ∧
    (FailInfo.mk 1 1 0 1).sourcesCursor ≠ (FailInfo.mk 1 1 0 1).sourcesConstructed := by
  decide

/-- C4 (amended): `makeDefinition`, with or without a parameter buffer,
succeeds on every grid built from a definition that has a WCS (the
reconstruction is a pure function of the grid, which it leaves unchanged);
for a WCS-less grid it dereferences the grid's empty WCS pointer instead. -/
theorem claim_C4_makeDefinition (d : Definition) (g : Grid)
    (buf : Option (List Int)) (w : Nat)
    (h : makeGrid d = .ok g) (hw : d.wcs = some w) :
    ∃ d' : Definition, makeDefinition g buf = .ok d' := by
  have hgw : g.wcs = some w := by
    obtain ⟨objs, srcs, hba, rfl⟩ := makeGrid_ok_elim d g h
    exact hw
  unfold makeDefinition
  rw [hgw]
  exact ⟨_, rfl⟩

/-- C4 counterexample: a grid successfully built from a WCS-less definition;
`makeDefinition` — with or without a buffer — hits the empty-pointer
dereference in `grid.getWcs()->clone()` instead of succeeding. -/
theorem claim_C4_counterexample :
    makeGrid exDefNoWcs = .ok exGridNoWcs ∧
    makeDefinition exGridNoWcs none = .error MFError.nullWcsDeref ∧
    makeDefinition exGridNoWcs (some [0, 0]) = .error MFError.nullWcsDeref := by
  decide

/-- Modelled from the spec: §4.1 describes the forward registration as, on
first sight, "constructing a new target instance (copying the active flag and
value, and — on the forward path — consuming `Kind.size` entries from an
optional external parameter buffer into the value if active and a buffer was
supplied)".  This definition follows the spec's words — the buffer is read at
the running parameter count, the new component's offset — to be compared with
`transferComponentsToGrid`, the forward transfer of the code, which takes no
buffer at all. -/
def transferToGridSpecVersion (E : ParameterType) (buf : Option (List Int)) :
    List (Option DefComponent) → List GridComponent →
    List (DefComponent × Nat) → Nat →
    List GridComponent × List (DefComponent × Nat) × Nat × List (Option Nat)
  | [], store, assoc, pc => (store, assoc, pc, [])
  | oc :: rest, store, assoc, pc =>
    match oc with
    | none =>
      let r := transferToGridSpecVersion E buf rest store assoc pc
      (r.1, r.2.1, r.2.2.1, none :: r.2.2.2)
    | some c =>
      match lookupKey c assoc with
      | some ix =>
        let r := transferToGridSpecVersion E buf rest store assoc pc
        (r.1, r.2.1, r.2.2.1, some ix :: r.2.2.2)
      | none =>
        let v :=
          match buf with
          | some b =>
            if c.active then (List.range E.SIZE).map fun k => b.getD (pc + k) 0
            else c.value
          | none => c.value
        let comp : GridComponent :=
          { active := c.active, value := v,
            offset := if c.active then (pc : Int) else -1 }
        let r := transferToGridSpecVersion E buf rest (store ++ [comp])
          ((c, store.length) :: assoc) (if c.active then pc + E.SIZE else pc)
        (r.1, r.2.1, r.2.2.1, some store.length :: r.2.2.2)

/-- C5 counterexample: on the forward path the spec's description would fill
the new grid value from the supplied buffer, but the code's forward transfer
has no buffer parameter and copies the definition value; the two disagree on
a one-component input. -/
theorem claim_C5_counterexample :
    (transferToGridSpecVersion .RADIUS (some [42]) [some ⟨0, true, [7]⟩] [] [] 0).1 =
      [⟨true, [42], 0⟩] ∧
    (transferComponentsToGrid .RADIUS [some ⟨0, true, [7]⟩] [] [] 0).1 =
      [⟨true, [7], 0⟩] ∧
    ([42] : List Int) ≠ [7] := by
  decide

/-- C5 (amended): on the forward path, first sight copies the active flag and
value — no buffer is consulted (the forward transfer takes none) — and repeat
sight of the same instance returns the previously created counterpart; the
buffer consumption described by the spec lives on the reverse path, where a
supplied buffer overwrites an active component's value with `Kind.size`
entries read at the component's stored offset. -/
theorem claim_C5_register_semantics (d : Definition) (g : Grid)
    (h : makeGrid d = .ok g) (E : ParameterType) :
    (∀ (i : Nat) (c : DefComponent), defComponentAt d E i = some c →
      ∃ (ix : Nat) (gc : GridComponent), gridRefAt g E i = some ix ∧
        (g.store E)[ix]? = some gc ∧ gc.active = c.active ∧ gc.value = c.value) ∧
    (∀ i j : Nat, defShares d E i j = true → gridRefAt g E i = gridRefAt g E j) ∧
    (∀ (buf : Option (List Int)) (d' : Definition), makeDefinition g buf = .ok d' →
      ∀ (i ix : Nat) (gc : GridComponent), gridRefAt g E i = some ix →
        (g.store E)[ix]? = some gc →
        defComponentAt d' E i = some
          ⟨ix, gc.active,
           match buf with
           | some b =>
             if gc.active then
               (List.range E.SIZE).map fun k => b.getD (gc.offset.toNat + k) 0
             else gc.value
           | none => gc.value⟩) := by
  refine ⟨?_, ?_, ?_⟩
  · intro i c hc
    obtain ⟨ix, hri, hlk⟩ := comp_corr_fwd d g h E i c hc
    obtain ⟨gc, hgc, ha, hv⟩ := (transferOf_spec d E).1.val c ix hlk
    rw [← grid_store_eq d g h E] at hgc
    exact ⟨ix, gc, hri, hgc, ha, hv⟩
  · intro i j hsh
    obtain ⟨c, hci, hcj⟩ := (defShares_eq_true_iff d E i j).mp hsh
    obtain ⟨ixi, hri, hlki⟩ := comp_corr_fwd d g h E i c hci
    obtain ⟨ixj, hrj, hlkj⟩ := comp_corr_fwd d g h E j c hcj
    rw [hri, hrj]
    rw [hlki] at hlkj
    rw [Option.some.inj hlkj]
  · intro buf d' hmd i ix gc hr hst
    rw [makeDef_comp g buf d' hmd E i, hr]
    simp only [Option.some_bind]
    rw [hst]
    simp only [Option.map_some']
    rfl

/-- C6 (amended): over an array sorted ascending by identifier, `find`
returns the entry holding a present identifier; for an absent identifier it
throws not-found provided some entry's identifier is at least the queried one
— when every identifier is below it, the final comparison reads out of
bounds instead (see the C10 analysis). -/
theorem claim_C6_find_correct (T : Type) (getId : T → Int) (arr : List T) (id : Int)
    (hs : List.Pairwise (fun a b => getId a < getId b) arr) :
    (∀ (k : Nat) (e : T), arr[k]? = some e → getId e = id →
      find getId arr id = .found e) ∧
    ((∀ e ∈ arr, getId e ≠ id) → (∃ e ∈ arr, id ≤ getId e) →
      find getId arr id = .notFound) :=
  ⟨fun k e hk he => find_found getId arr id hs k e hk he,
   fun habs hsome => find_notFound getId arr id hs habs hsome⟩

/-- C6 counterexample: identifier 9 is absent from the sorted array
`[3, 5]` and all identifiers are below it, so `find` performs an
out-of-bounds read at index 2 instead of reaching the not-found throw. -/
theorem claim_C6_counterexample :
    List.Pairwise (fun a b => FindEntry.id a < FindEntry.id b)
      ([⟨3, 0⟩, ⟨5, 1⟩] : List FindEntry) ∧
    (∀ e ∈ ([⟨3, 0⟩, ⟨5, 1⟩] : List FindEntry), e.id ≠ 9) ∧
    find FindEntry.id [⟨3, 0⟩, ⟨5, 1⟩] 9 = .oobRead 2 ∧
    find FindEntry.id [⟨3, 0⟩, ⟨5, 1⟩] 9 ≠ .notFound := by
  refine ⟨by decide, by decide, ?_, ?_⟩ <;> simp [find, lowerBoundLoop]

/-- C10 (amended): the final identifier comparison of `find` reads inside the
array exactly when some entry's identifier is at least the queried one; when
every identifier is below it — the empty array included — the read is one
past the end, so the not-found branch is reachable only when an entry with
identifier `≥ id` exists. -/
theorem claim_C10_oob_read (T : Type) (getId : T → Int) (arr : List T) (id : Int)
    (hs : List.Pairwise (fun a b => getId a < getId b) arr) :
    ((∃ e ∈ arr, id ≤ getId e) →
      lowerBoundLoop getId arr id 0 arr.length < arr.length) ∧
    ((∀ e ∈ arr, getId e < id) → find getId arr id = .oobRead arr.length) ∧
    (arr = [] → find getId arr id = .oobRead 0) := by
  obtain ⟨hle, hlow, hhigh⟩ := lowerBound_full getId arr id hs
  refine ⟨?_, fun hall => find_oob getId arr id hs hall, ?_⟩
  · rintro ⟨w, hw, hwge⟩
    obtain ⟨kw, hkw⟩ := List.getElem?_of_mem hw
    have hkwlen : kw < arr.length := by
      by_contra hge
      rw [List.getElem?_eq_none (by omega)] at hkw
      exact Option.noConfusion hkw
    by_contra hge
    have := hlow kw w (by omega) hkw
    omega
  · intro he
    subst he
    simpa using find_oob getId ([] : List T) id hs (by intro e he; simp at he)

/-- C10 counterexample: the non-empty sorted array `[5]` queried with 7 — all
identifiers below the query — makes the final comparison read index 1, one
past the array, refuting the claim's "for every non-empty sorted array the
final identifier comparison reads an element inside the array". -/
theorem claim_C10_counterexample :
    ([⟨5, 0⟩] : List FindEntry) ≠ [] ∧
    List.Pairwise (fun a b => FindEntry.id a < FindEntry.id b)
      ([⟨5, 0⟩] : List FindEntry) ∧
    find FindEntry.id [⟨5, 0⟩] 7 = .oobRead 1 ∧
    ([⟨5, 0⟩] : List FindEntry).length ≤ 1 := by
  refine ⟨by decide, by decide, ?_, by decide⟩
  simp [find, lowerBoundLoop]

/-- C7 counterexample: `exDefC7` contains a basisless object and a PSF-less
frame, yet grid construction fails with the coordinate-system inconsistency
error — the first object has a basis, so validation passes it and its first
source constructor throws on the WCS mismatch before the basisless object is
ever validated; the failure is not `missingBasisOrPsf` as the claim states. -/
theorem claim_C7_counterexample :
    (∃ o ∈ exDefC7.objects, o.basis = none) ∧
    (∃ f ∈ exDefC7.frames, f.psf = none) ∧
    makeGrid exDefC7 = .error (MFError.inconsistentWcsFrameMissing, ⟨1, 2, 0, 1⟩) ∧
    MFError.inconsistentWcsFrameMissing ≠ MFError.missingBasisOrPsf := by
  decide

/-! ## Witnesses -/

/-- C1 witness: the two example objects share the radius component, the grid
shares the single grid radius component, and the reconstructed definition
shares again. -/
theorem claim_C1_witness :
    defShares exDef .RADIUS 0 1 = gridShares exGrid .RADIUS 0 1 ∧
    gridShares exGrid .RADIUS 0 1 = defShares exDefRT .RADIUS 0 1 :=
  ⟨(claim_C1_sharing_roundtrip exDef exGrid (by decide) .RADIUS 0 1).1,
   (claim_C1_sharing_roundtrip exDef exGrid (by decide) .RADIUS 0 1).2
     none exDefRT (by decide)⟩

/-- C2 witness at the example grid (parameter count 3: one active position,
one shared active radius, one inactive position with sentinel). -/
theorem claim_C2_witness :
    coveredSlots (activeRanges exGrid) = List.range exGrid.parameterCount ∧
    (∀ E : ParameterType, ∀ c ∈ exGrid.store E, c.active = false → c.offset = -1) ∧
    ∃ p₁ p₂ : Nat,
      checkOffsets .POSITION exGrid.positions 0 = some p₁ ∧
      checkOffsets .RADIUS exGrid.radii p₁ = some p₂ ∧
      checkOffsets .ELLIPTICITY exGrid.ellipticities p₂ = some exGrid.parameterCount :=
  claim_C2_offset_partition exDef exGrid (by decide)

/-- C4 witness: reconstruction succeeds on the example grid (built from a
definition with a WCS). -/
theorem claim_C4_witness :
    ∃ d' : Definition, makeDefinition exGrid none = .ok d' :=
  claim_C4_makeDefinition exDef exGrid none 0 (by decide) (by decide)

/-- C5 witness: the shared radius instance is copied (active flag and value)
into the single grid radius component, and the reconstruction copies it
back. -/
theorem claim_C5_witness :
    (∃ (ix : Nat) (gc : GridComponent), gridRefAt exGrid .RADIUS 0 = some ix ∧
      (exGrid.store .RADIUS)[ix]? = some gc ∧ gc.active = exShared.active ∧
      gc.value = exShared.value) ∧
    defComponentAt exDefRT .RADIUS 0 = some ⟨0, true, [7]⟩ :=
  ⟨(claim_C5_register_semantics exDef exGrid (by decide) .RADIUS).1 0 exShared (by decide),
   (claim_C5_register_semantics exDef exGrid (by decide) .RADIUS).2.2
     none exDefRT (by decide) 0 0 ⟨true, [7], 2⟩ (by decide) (by decide)⟩

/-- C6 witness: id 5 is found, id 4 (absent, below 5) throws not-found. -/
theorem claim_C6_witness :
    find FindEntry.id exArr 5 = .found ⟨5, 1⟩ ∧
    find FindEntry.id exArr 4 = .notFound :=
  ⟨(claim_C6_find_correct FindEntry FindEntry.id exArr 5 (by decide)).1
     1 ⟨5, 1⟩ (by decide) (by decide),
   (claim_C6_find_correct FindEntry FindEntry.id exArr 4 (by decide)).2
     (by decide) ⟨⟨5, 1⟩, by decide, by decide⟩⟩

/-- C7 witness: with consistent WCS presence, the basisless-object /
PSF-less-frame definition fails with `missingBasisOrPsf`; and a concrete
source carries the convolved basis. -/
theorem claim_C7_witness :
    (∃ fi : FailInfo, makeGrid exDefC7b = .error (MFError.missingBasisOrPsf, fi)) ∧
    (Source.mk 0 1 false (some 50) (some (SourceBasis.convolved 70 50))).basis =
      some (SourceBasis.convolved 70 50) :=
  ⟨claim_C7_missing_basis_psf.1 exDefC7b (by decide) (by decide) (by decide) (by decide),
   (claim_C7_missing_basis_psf.2 none ⟨100, 5, some 50, none, 0, 30, 0, 0⟩ 1 70
     (some ⟨true, [1, 2], 0⟩) (Source.mk 0 1 false (some 50)
       (some (SourceBasis.convolved 70 50))) (by decide)).1 50 rfl⟩

/-- C8 witness: a definition WCS with a WCS-less frame is exactly the
inconsistent case. -/
theorem claim_C8_witness :
    (mkSource (some 0) ⟨100, 5, some 50, none, 0, 30, 0, 0⟩ 1 (some 70) none =
        .error MFError.inconsistentWcsFrameMissing ∨
     mkSource (some 0) ⟨100, 5, some 50, none, 0, 30, 0, 0⟩ 1 (some 70) none =
        .error MFError.inconsistentWcsFrameHas) ↔
      (some 0 : Option Nat).isSome ≠
        (GridFrame.mk 100 5 (some 50) none 0 30 0 0).wcs.isSome :=
  claim_C8_wcs_consistency (some 0) ⟨100, 5, some 50, none, 0, 30, 0, 0⟩ 1 (some 70) none

/-- C9 witness: 2 objects × 2 frames give 4 sources in per-object contiguous
ranges. -/
theorem claim_C9_witness :
    exGrid.objects.length = exDef.objects.length ∧
    exGrid.frames.length = exDef.frames.length ∧
    exGrid.sources.length = exGrid.objects.length * exGrid.frames.length ∧
    ∀ (i : Nat) (o : GridObject), exGrid.objects[i]? = some o →
      o.sourcesFirst = i * exGrid.frames.length ∧
      o.sourcesLast = i * exGrid.frames.length + exGrid.frames.length ∧
      ∀ (j : Nat) (gf : GridFrame), exGrid.frames[j]? = some gf →
        ∃ s : Source, exGrid.sources[i * exGrid.frames.length + j]? = some s ∧
          s.objectId = o.id ∧ s.frameIndex = j :=
  claim_C9_source_cardinality exDef exGrid (by decide)

/-- C10 witness: with an entry `≥ id` present the final read is in bounds;
with all identifiers below the query (or the empty array) the read is one
past the end. -/
theorem claim_C10_witness :
    lowerBoundLoop FindEntry.id exArr 4 0 exArr.length < exArr.length ∧
    find FindEntry.id exArr 99 = .oobRead exArr.length ∧
    find FindEntry.id ([] : List FindEntry) 7 = .oobRead 0 :=
  ⟨(claim_C10_oob_read FindEntry FindEntry.id exArr 4 (by decide)).1
     ⟨⟨5, 1⟩, by decide, by decide⟩,
   (claim_C10_oob_read FindEntry FindEntry.id exArr 99 (by decide)).2.1 (by decide),
   (claim_C10_oob_read FindEntry FindEntry.id ([] : List FindEntry) 7 (by decide)).2.2 rfl⟩

end Multifit
